import Mathlib

/-!
Verification development for the Pivot `Essence` application-state core.

The `Essence` class (state object, visualization resolution, hash codec) and the
`FilterClause` collaborator are translated directly from the TypeScript source.
Collaborator value types that the repository imports from sibling modules not
present here (DataSource, Filter, Splits, Colors, Highlight, Manifest/Resolve,
Timezone, and the lz-string / JSON externals) are modelled from the spec's
collaborator contracts; each such definition is marked `Modelled from the spec`.
-/

set_option linter.unusedVariables false
set_option maxRecDepth 65536

namespace Pivot

/-! ### JSON value model -/

mutual

/-- Modelled from the spec: JavaScript JSON values ("each JSON-encoded, null if
absent").  The model covers the fragment the hash payload uses: null, booleans,
(natural) numbers, strings and arrays. -/
inductive JSValue where
  | null : JSValue
  | bool (b : Bool) : JSValue
  | num (n : Nat) : JSValue
  | str (s : String) : JSValue
  | arr (elems : JSArr) : JSValue

/-- Modelled from the spec: a JSON array (spine kept as a separate inductive so
that all recursion over values stays structural). -/
inductive JSArr where
  | nil : JSArr
  | cons (head : JSValue) (tail : JSArr) : JSArr

end

/-- JavaScript truthiness of a JSON value (`x || null` style checks). -/
def JSValue.jsTruthy : JSValue → Bool
  | .null => false
  | .bool b => b
  | .num n => n != 0
  | .str s => s != ""
  | .arr _ => true

/-- `x || null` as used in `toHash`/`fromHash`. -/
def jsOrNull (v : JSValue) : JSValue := if v.jsTruthy then v else .null

def JSArr.ofList : List JSValue → JSArr
  | [] => .nil
  | v :: vs => .cons v (JSArr.ofList vs)

def JSArr.toList : JSArr → List JSValue
  | .nil => []
  | .cons v vs => v :: JSArr.toList vs

/-! ### Digits and JS `parseInt` -/

def natToCharsAux : Nat → Nat → List Char
  | 0, _ => []
  | fuel + 1, n =>
    if n < 10 then [Nat.digitChar n]
    else natToCharsAux fuel (n / 10) ++ [Nat.digitChar (n % 10)]

/-- Decimal digit rendering of a natural number (how the modelled
`JSON.stringify` prints numbers). -/
def natToChars (n : Nat) : List Char := natToCharsAux (n + 1) n

def natOfDigits (cs : List Char) : Nat :=
  cs.foldl (fun a c => 10 * a + (c.toNat - 48)) 0

/-- Modelled from the spec: JavaScript `parseInt(s, 10)` — skip spaces, optional
sign, then the leading run of decimal digits; no digits means NaN (`none`). -/
def parseIntJS (cs : List Char) : Option Int :=
  let cs := cs.dropWhile (fun c => c = ' ')
  match cs with
  | '-' :: r =>
    let ds := r.takeWhile Char.isDigit
    if ds.isEmpty then none else some (-(natOfDigits ds : Int))
  | '+' :: r =>
    let ds := r.takeWhile Char.isDigit
    if ds.isEmpty then none else some ((natOfDigits ds : Int))
  | r =>
    let ds := r.takeWhile Char.isDigit
    if ds.isEmpty then none else some ((natOfDigits ds : Int))

/-! ### Character-list splitting and joining (JS `split` / `join`) -/

def intercalateChar (sep : Char) : List (List Char) → List Char
  | [] => []
  | [x] => x
  | x :: xs => x ++ sep :: intercalateChar sep xs

/-- JS `String.prototype.split(sep)` for a one-character separator:
`"".split` gives `[""]`, and separators at the edges give empty segments. -/
def splitOnChar (sep : Char) : List Char → List (List Char)
  | [] => [[]]
  | c :: rest =>
    if c = sep then [] :: splitOnChar sep rest
    else
      match splitOnChar sep rest with
      | [] => [[c]]
      | p :: ps => (c :: p) :: ps

/-! ### Modelled JSON stringify / parse

Modelled from the spec: the JavaScript `JSON.stringify` / `JSON.parse`
builtin pair is external to the repository.  The model keeps the parts the
source relies on structurally — arrays are bracketed and comma-separated, so
that `toHash`'s `restJSON.join(',')` and `fromHash`'s
`JSON.parse('[' + s + ']')` interact exactly as in the source — while atoms
use a simple self-delimiting syntax (length-prefixed strings) so the pair is
an exact encode/parse inverse without an escaping mechanism. -/

mutual

def encodeJSON : JSValue → List Char
  | .null => ['N']
  | .bool true => ['T']
  | .bool false => ['F']
  | .num n => '#' :: (natToChars n ++ [';'])
  | .str s => '$' :: (natToChars s.length ++ ':' :: s.data)
  | .arr l => '[' :: (encodeJSONArr l ++ [']'])

def encodeJSONArr : JSArr → List Char
  | .nil => []
  | .cons v .nil => encodeJSON v
  | .cons v (.cons w l) => encodeJSON v ++ ',' :: encodeJSONArr (.cons w l)

end

/-- Fuel-driven parser for the modelled JSON syntax.  `mode = true` parses one
value; `mode = false` parses the comma-separated tail of a non-empty array up
to and including its closing bracket. -/
def parseF : Nat → Bool → List Char → Option (JSValue × List Char)
  | 0, _, _ => none
  | fuel + 1, true, cs =>
    match cs with
    | 'N' :: r => some (.null, r)
    | 'T' :: r => some (.bool true, r)
    | 'F' :: r => some (.bool false, r)
    | '#' :: r =>
      let ds := r.takeWhile Char.isDigit
      let r1 := r.dropWhile Char.isDigit
      if ds.isEmpty then none
      else
        match r1 with
        | ';' :: r2 => some (.num (natOfDigits ds), r2)
        | _ => none
    | '$' :: r =>
      let ds := r.takeWhile Char.isDigit
      let r1 := r.dropWhile Char.isDigit
      if ds.isEmpty then none
      else
        match r1 with
        | ':' :: r2 =>
          let n := natOfDigits ds
          if n ≤ r2.length then some (.str (String.mk (r2.take n)), r2.drop n)
          else none
        | _ => none
    | '[' :: ']' :: r => some (.arr .nil, r)
    | '[' :: r => parseF fuel false r
    | _ => none
  | fuel + 1, false, cs =>
    match parseF fuel true cs with
    | none => none
    | some (v, r) =>
      match r with
      | ',' :: r1 =>
        match parseF fuel false r1 with
        | some (JSValue.arr l, r2) => some (.arr (.cons v l), r2)
        | _ => none
      | ']' :: r1 => some (.arr (.cons v .nil), r1)
      | _ => none

/-- Modelled from the spec: `JSON.parse` — it must consume the whole input;
any malformed input yields `none` (the thrown exception, which `fromHash`
catches). -/
def jsonParse (cs : List Char) : Option JSValue :=
  match parseF (cs.length + 1) true cs with
  | some (v, []) => some v
  | _ => none

/-! ### Modelled lz-string compression -/

/-- Modelled from the spec: the lz-string `compressToBase64` collaborator.
Modelled as a marker-prefixed identity — an injective encoding whose output
may freely contain `/` characters (as real base64 output does), which is what
forces `fromHash` to re-join the remaining hash segments. -/
def compressToBase64 (cs : List Char) : List Char := 'C' :: cs

/-- Modelled from the spec: the lz-string `decompressFromBase64` collaborator —
the partial inverse of `compressToBase64`; undecompressible input yields
`none` (in the source this path surfaces as a payload that fails the JSON
array checks, with the same observable `null` outcome). -/
def decompressFromBase64 : List Char → Option (List Char)
  | 'C' :: cs => some cs
  | _ => none

/-! ### Collaborator value models (Modelled from the spec, §6) -/

/-- Modelled from the spec: a plywood `TimeRange` (`{start, end}`); endpoints
are modelled as milliseconds since epoch. -/
structure TimeRange where
  start : Nat
  stop : Nat
deriving DecidableEq

/-- Modelled from the spec: a chronoshift `Timezone` (display timezone,
identified by its name). -/
structure Timezone where
  id : String
deriving DecidableEq

/-- Modelled from the spec: dimension metadata — the core only uses lookup by
name, so the model carries the name (the dimension's `$name` expression is
identified with it). -/
structure Dimension where
  name : String
deriving DecidableEq

/-- Modelled from the spec: measure metadata — the core only uses lookup by
name and the dataset-declared order of the `measures` list. -/
structure Measure where
  name : String
deriving DecidableEq

/-- Modelled from the spec: the value collection of one filter clause — either
a set of discrete string values or a single time range. -/
inductive FValues where
  | strs (vs : List String) : FValues
  | time (r : TimeRange) : FValues
deriving DecidableEq

/-- Modelled from the spec: one clause of the collaborator `Filter` — a
predicate on a single dimension. -/
structure FClause where
  dimension : String
  values : FValues
  exclude : Bool
deriving DecidableEq

/-- Modelled from the spec: the collaborator `Filter` — a conjunction of
clauses, at most one per dimension in the states the core builds. -/
structure Filter where
  clauses : List FClause
deriving DecidableEq

/-- Modelled from the spec: plywood `Filter.setClause` — replace the clause on
the same dimension, or append. -/
def Filter.setClause (f : Filter) (c : FClause) : Filter :=
  if f.clauses.any (fun x => x.dimension = c.dimension) then
    ⟨f.clauses.map (fun x => if x.dimension = c.dimension then c else x)⟩
  else ⟨f.clauses ++ [c]⟩

/-- Modelled from the spec: `Filter.getTimeRange(timeAttribute)` — the range of
the clause on the time attribute, if that clause carries a time range. -/
def Filter.getTimeRange (f : Filter) (attr : String) : Option TimeRange :=
  match f.clauses.find? (fun x => x.dimension = attr) with
  | some c =>
    match c.values with
    | .time r => some r
    | _ => none
  | none => none

/-- Modelled from the spec: `Filter.setTimeRange(timeAttribute, timeRange)`. -/
def Filter.setTimeRange (f : Filter) (attr : String) (r : TimeRange) : Filter :=
  f.setClause ⟨attr, .time r, false⟩

/-- Modelled from the spec: `Filter.remove(expression)` — drop the clause bound
to the given dimension. -/
def Filter.remove (f : Filter) (dimName : String) : Filter :=
  ⟨f.clauses.filter (fun c => c.dimension ≠ dimName)⟩

/-- Modelled from the spec: `constrainToDimensions(dimensions, timeAttribute,
oldTimeAttribute?)` — remap the time attribute if it changed identity across a
dataset switch, then drop clauses referencing dimensions the dataset lacks. -/
def Filter.constrainToDimensions (f : Filter) (dims : List Dimension)
    (timeAttr : Option String) (oldTimeAttr : Option String) : Filter :=
  ⟨(f.clauses.map (fun c =>
      match timeAttr, oldTimeAttr with
      | some ta, some ota => if c.dimension = ota then { c with dimension := ta } else c
      | _, _ => c)).filter
    (fun c => dims.any (fun d => d.name = c.dimension))⟩

/-- Modelled from the spec: one grouping specification — the split's dimension
plus the time range it is currently bound to (for splits on the time
attribute, re-derived whenever the filter's time range moves). -/
structure SplitCombine where
  dimension : String
  bucket : Option TimeRange
deriving DecidableEq

/-- Modelled from the spec: `SplitCombine.fromExpression($dim)`. -/
def SplitCombine.fromExpression (dimName : String) : SplitCombine :=
  ⟨dimName, none⟩

/-- Modelled from the spec: the collaborator `Splits` — an ordered list of
split combines. -/
structure Splits where
  splits : List SplitCombine
deriving DecidableEq

def Splits.EMPTY : Splits := ⟨[]⟩

def Splits.fromSplitCombine (sc : SplitCombine) : Splits := ⟨[sc]⟩

/-- Modelled from the spec: `updateWithTimeRange(timeAttribute, timeRange,
timezone, force?)` — every split bound to the time attribute is re-derived to
follow the supplied range (the timezone/force arguments only influence bucket
granularity in the source and are inert in the model). -/
def Splits.updateWithTimeRange (s : Splits) (attr : String) (r : Option TimeRange)
    (tz : Timezone) (force : Bool) : Splits :=
  ⟨s.splits.map (fun sc => if sc.dimension = attr then { sc with bucket := r } else sc)⟩

/-- Modelled from the spec: `Splits.constrainToDimensions(dimensions)` — drop
splits referencing dimensions the dataset lacks; order preserved. -/
def Splits.constrainToDimensions (s : Splits) (dims : List Dimension) : Splits :=
  ⟨s.splits.filter (fun sc => dims.any (fun d => d.name = sc.dimension))⟩

/-- Modelled from the spec: the optional single-dimension color-coding
assignment. -/
structure Colors where
  dimension : String
deriving DecidableEq

/-- Modelled from the spec: the transient highlight — an owner identifier plus
a filter delta to merge into the working filter. -/
structure Highlight where
  owner : String
  delta : Filter
deriving DecidableEq

/-- Modelled from the spec: `Highlight.applyToFilter(filter)` — fold the
delta's clauses into the base filter. -/
def Highlight.applyToFilter (h : Highlight) (f : Filter) : Filter :=
  h.delta.clauses.foldl Filter.setClause f

/-- Modelled from the spec: `Highlight.constrainToDimensions`. -/
def Highlight.constrainToDimensions (h : Highlight) (dims : List Dimension)
    (timeAttr : Option String) : Highlight :=
  ⟨h.owner, h.delta.constrainToDimensions dims timeAttr none⟩

/-- Modelled from the spec: the dataset collaborator — name, dimension/measure
lookup, default filter/timezone/duration, required filter, optional time
attribute, default pinned dimensions, default sort measure, the ordered
measure list, an optional default split dimension (the `options` entry), and
the latest data timestamp used for the default time window. -/
structure DataSource where
  name : String
  dimensions : List Dimension
  measures : List Measure
  timeAttribute : Option String
  maxTime : Nat
  defaultTimezone : Timezone
  defaultDuration : Nat
  defaultFilter : Filter
  requiredFilter : Filter
  defaultPinnedDimensions : List String
  defaultSortMeasure : String
  defaultSplitDimension : Option String
deriving DecidableEq

def DataSource.getDimension (ds : DataSource) (n : String) : Option Dimension :=
  ds.dimensions.find? (fun d => d.name = n)

def DataSource.getMeasure (ds : DataSource) (n : String) : Option Measure :=
  ds.measures.find? (fun m => m.name = n)

def DataSource.getMaxTimeDate (ds : DataSource) : Nat := ds.maxTime

/-- Modelled from the spec: a suggested adjustment attached to a "ready with
suggested adjustment" verdict (new splits, optionally new colors). -/
structure Adjustment where
  splits : Splits
  colors : Option Colors
deriving DecidableEq

/-- Modelled from the spec: the resolver's readiness verdict, on the fixed
ordinal scale *ready (automatic, high confidence)* > *ready (as requested)* >
*ready with suggested adjustment* > *manual* > *not applicable*. -/
inductive Resolve where
  | ready (highConfidence : Bool) : Resolve
  | automatic (adjustment : Adjustment) : Resolve
  | manual : Resolve
  | never : Resolve
deriving DecidableEq

def Resolve.isReady : Resolve → Bool
  | .ready _ => true
  | _ => false

def Resolve.isAutomatic : Resolve → Bool
  | .automatic _ => true
  | _ => false

def Resolve.isManual : Resolve → Bool
  | .manual => true
  | _ => false

/-- Rank on the spec's total verdict order: lower is better. -/
def Resolve.rank : Resolve → Nat
  | .ready true => 0
  | .ready false => 1
  | .automatic _ => 2
  | .manual => 3
  | .never => 4

/-- Modelled from the spec: a visualization manifest — a stable identifier and
the pure applicability rule `(dataset, splits, colors, isCurrentlyActive) →
verdict`. -/
structure Manifest where
  id : String
  handleCircumstance : DataSource → Splits → Option Colors → Bool → Resolve

structure VisualizationAndResolve where
  visualization : Manifest
  resolve : Resolve

/-! ### Collaborator JS conversions (Modelled from the spec, §6: each
collaborator exposes `toJS`/`fromJS`; the model makes them exact inverses) -/

def Timezone.toJS (tz : Timezone) : JSValue := .str tz.id

def Timezone.fromJS : JSValue → Except String Timezone
  | .str s => .ok ⟨s⟩
  | _ => .error "timezone description must be a string"

def FValues.toJS : FValues → JSValue
  | .strs vs => .arr (.cons (.str "set") (JSArr.ofList (vs.map JSValue.str)))
  | .time r => .arr (.cons (.str "time") (.cons (.num r.start) (.cons (.num r.stop) .nil)))

def FValues.fromJS : JSValue → Except String FValues
  | .arr (.cons (.str "set") vs) =>
    (vs.toList.mapM (fun v =>
      match v with
      | JSValue.str s => Except.ok s
      | _ => Except.error "bad set element")).map FValues.strs
  | .arr (.cons (.str "time") (.cons (.num a) (.cons (.num b) .nil))) =>
    .ok (.time ⟨a, b⟩)
  | _ => .error "bad values"

def FClause.toJS (c : FClause) : JSValue :=
  .arr (.cons (.str c.dimension) (.cons c.values.toJS (.cons (.bool c.exclude) .nil)))

def FClause.fromJS : JSValue → Except String FClause
  | .arr (.cons (.str dim) (.cons vs (.cons (.bool ex) .nil))) =>
    (FValues.fromJS vs).map (fun v => ⟨dim, v, ex⟩)
  | _ => .error "bad filter clause"

def Filter.toJS (f : Filter) : JSValue :=
  .arr (JSArr.ofList (f.clauses.map FClause.toJS))

def Filter.fromJS : JSValue → Except String Filter
  | .arr l => (l.toList.mapM FClause.fromJS).map Filter.mk
  | _ => .error "bad filter"

def SplitCombine.toJS (sc : SplitCombine) : JSValue :=
  .arr (.cons (.str sc.dimension)
    (match sc.bucket with
     | some r => .cons (.num r.start) (.cons (.num r.stop) .nil)
     | none => .nil))

def SplitCombine.fromJS : JSValue → Except String SplitCombine
  | .arr (.cons (.str dim) .nil) => .ok ⟨dim, none⟩
  | .arr (.cons (.str dim) (.cons (.num a) (.cons (.num b) .nil))) => .ok ⟨dim, some ⟨a, b⟩⟩
  | _ => .error "bad split combine"

def Splits.toJS (s : Splits) : JSValue :=
  .arr (JSArr.ofList (s.splits.map SplitCombine.toJS))

def Splits.fromJS : JSValue → Except String Splits
  | .arr l => (l.toList.mapM SplitCombine.fromJS).map Splits.mk
  | _ => .error "bad splits"

def Colors.toJS (c : Colors) : JSValue := .arr (.cons (.str c.dimension) .nil)

def Colors.fromJS : JSValue → Except String Colors
  | .arr (.cons (.str dim) .nil) => .ok ⟨dim⟩
  | _ => .error "bad colors"

def Highlight.toJS (h : Highlight) : JSValue :=
  .arr (.cons (.str h.owner) (.cons h.delta.toJS .nil))

def Highlight.fromJS : JSValue → Except String Highlight
  | .arr (.cons (.str owner) (.cons delta .nil)) =>
    (Filter.fromJS delta).map (fun f => ⟨owner, f⟩)
  | _ => .error "bad highlight"

/-- Helper for the immutable-js `OrderedSet(iterable)` constructor: keep the
first occurrence of each element. -/
def dedupAux : List String → List String → List String
  | _, [] => []
  | seen, s :: r =>
    if seen.contains s then dedupAux seen r
    else s :: dedupAux (s :: seen) r

/-- Modelled from the spec: `OrderedSet(jsArray)` over a decoded JSON value —
accepts an array, keeps its string elements in order without duplicates
(non-string elements can never match a dimension/measure name and are dropped
by the constraint helpers in the source; the model drops them here). -/
def strSetFromJS : JSValue → Except String (List String)
  | .arr l =>
    .ok (dedupAux [] (l.toList.filterMap (fun v =>
      match v with
      | JSValue.str s => some s
      | _ => none)))
  | _ => .error "TypeError: expected an iterable"

/-! ### The Essence core (translated from the source) -/

/-- `constrainDimensions` (source): intersect a requested dimension name-set
against what the dataset exposes; order preserved. -/
def constrainDimensions (dimensions : List String) (dataSource : DataSource) : List String :=
  dimensions.filter (fun dimensionName => (dataSource.getDimension dimensionName).isSome)

/-- `constrainMeasures` (source): the measure analogue of
`constrainDimensions`. -/
def constrainMeasures (measures : List String) (dataSource : DataSource) : List String :=
  measures.filter (fun measureName => (dataSource.getMeasure measureName).isSome)

/-- `VisStrategy` (source): FairGame — run all visualizations pretending there
is no current; UnfairGame — run all but mark the current one as current;
KeepAlways — just keep the current one. -/
inductive VisStrategy where
  | FairGame : VisStrategy
  | UnfairGame : VisStrategy
  | KeepAlways : VisStrategy
deriving DecidableEq

/-- `EssenceValue` (source): the constructor parameter record.  `dataSource`
and `visualization` are optional here because the source checks/resolves
them at construction time. -/
structure EssenceValue where
  dataSources : List DataSource
  visualizations : List Manifest
  dataSource : Option DataSource
  visualization : Option Manifest
  timezone : Timezone
  filter : Filter
  requiredFilter : Filter
  splits : Splits
  selectedMeasures : List String
  pinnedDimensions : List String
  colors : Option Colors
  pinnedSort : String
  compare : Option Filter
  highlight : Option Highlight

/-- `EssenceJS` (source): the JS-side record.  The JSON-valued fields use
`JSValue.null` where the source would have `undefined`/`null`. -/
structure EssenceJS where
  dataSource : String
  visualization : String
  timezone : JSValue
  filter : JSValue
  requiredFilter : JSValue
  splits : JSValue
  selectedMeasures : JSValue
  pinnedDimensions : JSValue
  pinnedSort : JSValue
  colors : JSValue
  compare : JSValue
  highlight : JSValue

/-- The constructed `Essence` state object, including the cached resolution
verdict `visResolve`. -/
structure Essence where
  dataSources : List DataSource
  visualizations : List Manifest
  dataSource : DataSource
  visualization : Manifest
  timezone : Timezone
  filter : Filter
  requiredFilter : Filter
  splits : Splits
  selectedMeasures : List String
  pinnedDimensions : List String
  colors : Option Colors
  pinnedSort : String
  compare : Option Filter
  highlight : Option Highlight
  visResolve : Resolve

/-- `getBestVisualization` (source): evaluate every catalog visualization's
rule (flagging the currently-active one) and pick the best verdict; the JS
sort is stable, so ties keep catalog order.  The current visualization is
identified by its stable id.  Empty catalog gives `none` (the source would
produce `undefined`). -/
def getBestVisualization (visualizations : List Manifest) (dataSource : DataSource)
    (splits : Splits) (colors : Option Colors) (currentVisualization : Option String) :
    Option VisualizationAndResolve :=
  let visAndResolves := visualizations.map (fun visualization =>
    VisualizationAndResolve.mk visualization
      (visualization.handleCircumstance dataSource splits colors
        (currentVisualization == some visualization.id)))
  match visAndResolves with
  | [] => none
  | x :: xs =>
    some (xs.foldl (fun best p => if p.resolve.rank < best.resolve.rank then p else best) x)

/-- The constructor's visualization choice: the supplied one, or the best
catalog fit (source: `if (!visualization) { ... getBestVisualization ... }`). -/
def chooseVisualization (p : EssenceValue) (dataSource : DataSource) : Option Manifest :=
  match p.visualization with
  | some v => some v
  | none =>
    match getBestVisualization p.visualizations dataSource p.splits p.colors none with
    | some vr => some vr.visualization
    | none => none

/-- The `Essence` constructor (source lines 252–291), as a fallible
construction function: catalog emptiness and dataset presence are checked,
a missing visualization is auto-resolved, and an "automatic" verdict triggers
exactly one adjustment pass that must end ready. -/
def Essence.construct (p : EssenceValue) : Except String Essence :=
  if p.dataSources.isEmpty then .error "can not have empty dataSource list"
  else
    match p.dataSource with
    | none => .error "must have a dataSource"
    | some dataSource =>
      match chooseVisualization p dataSource with
      | none => .error "TypeError: no visualization could be resolved"
      | some visualization =>
        match visualization.handleCircumstance dataSource p.splits p.colors true with
        | .automatic adjustment =>
          if (visualization.handleCircumstance dataSource adjustment.splits adjustment.colors true).isReady then
            .ok ⟨p.dataSources, p.visualizations, dataSource, visualization, p.timezone,
              p.filter, p.requiredFilter, adjustment.splits, p.selectedMeasures, p.pinnedDimensions,
              adjustment.colors, p.pinnedSort, p.compare, p.highlight,
              visualization.handleCircumstance dataSource adjustment.splits adjustment.colors true⟩
          else .error "visualization must be ready after automatic adjustment"
        | visResolve =>
          .ok ⟨p.dataSources, p.visualizations, dataSource, visualization, p.timezone,
            p.filter, p.requiredFilter, p.splits, p.selectedMeasures, p.pinnedDimensions,
            p.colors, p.pinnedSort, p.compare, p.highlight, visResolve⟩

/-- `valueOf` (source). -/
def Essence.valueOf (e : Essence) : EssenceValue :=
  { dataSources := e.dataSources
    visualizations := e.visualizations
    dataSource := some e.dataSource
    visualization := some e.visualization
    timezone := e.timezone
    filter := e.filter
    requiredFilter := e.requiredFilter
    splits := e.splits
    selectedMeasures := e.selectedMeasures
    pinnedDimensions := e.pinnedDimensions
    colors := e.colors
    pinnedSort := e.pinnedSort
    compare := e.compare
    highlight := e.highlight }

/-- `toJS` (source): optional fields are emitted only when set; `pinnedSort`
is emitted only when it differs from the dataset's default sort measure. -/
def Essence.toJS (e : Essence) : EssenceJS :=
  { dataSource := e.dataSource.name
    visualization := e.visualization.id
    timezone := e.timezone.toJS
    filter := e.filter.toJS
    requiredFilter := e.requiredFilter.toJS
    splits := e.splits.toJS
    selectedMeasures := .arr (JSArr.ofList (e.selectedMeasures.map JSValue.str))
    pinnedDimensions := .arr (JSArr.ofList (e.pinnedDimensions.map JSValue.str))
    pinnedSort := if e.pinnedSort ≠ e.dataSource.defaultSortMeasure then .str e.pinnedSort else .null
    colors :=
      match e.colors with
      | some c => c.toJS
      | none => .null
    compare :=
      match e.compare with
      | some f => f.toJS
      | none => .null
    highlight :=
      match e.highlight with
      | some h => h.toJS
      | none => .null }

/-- `equals` (source): deep field-by-field equality; visualization compared by
id only; the optional fields compare presence first. -/
def Essence.equals (e other : Essence) : Bool :=
  (e.dataSource == other.dataSource) &&
  (e.visualization.id == other.visualization.id) &&
  (e.timezone == other.timezone) &&
  (e.filter == other.filter) &&
  (e.requiredFilter == other.requiredFilter) &&
  (e.splits == other.splits) &&
  (e.selectedMeasures == other.selectedMeasures) &&
  (e.pinnedDimensions == other.pinnedDimensions) &&
  (e.colors.isSome == other.colors.isSome) &&
  (match e.colors, other.colors with
   | some a, some b => a == b
   | _, _ => true) &&
  (e.pinnedSort == other.pinnedSort) &&
  (e.compare.isSome == other.compare.isSome) &&
  (match e.compare, other.compare with
   | some a, some b => a == b
   | _, _ => true) &&
  (e.highlight.isSome == other.highlight.isSome) &&
  (match e.highlight, other.highlight with
   | some a, some b => a == b
   | _, _ => true)

/-- `toHash` (source): positions 0–6 always, then sparse assignment of
colors/compare/highlight at 7/8/9 (a JS array's length becomes the highest
assigned index + 1, and holes stringify as `null` via `|| null`); each entry
is JSON-stringified, joined with commas, compressed, and glued after
`#dataSource/visualization/1/`. -/
def Essence.toHash (e : Essence) : String :=
  let js := e.toJS
  let base := [js.timezone, js.filter, js.requiredFilter, js.splits,
    js.selectedMeasures, js.pinnedDimensions, js.pinnedSort]
  let compressed :=
    if js.highlight.jsTruthy then base ++ [js.colors, js.compare, js.highlight]
    else if js.compare.jsTruthy then base ++ [js.colors, js.compare]
    else if js.colors.jsTruthy then base ++ [js.colors]
    else base
  let restJSON := compressed.map (fun v => encodeJSON (jsOrNull v))
  String.mk ('#' :: intercalateChar '/'
    [js.dataSource.data, js.visualization.data, natToChars 1,
      compressToBase64 (intercalateChar ',' restJSON)])

/-- `fromJS` (source): resolve the visualization id and dataset name against
the live catalogs, convert and constrain every field, then construct.  An
unknown dataset name surfaces exactly where the source first dereferences the
`undefined` lookup result (`dataSource.dimensions`); an unknown visualization
id yields `none` and is auto-resolved by the constructor. -/
def Essence.fromJS (p : EssenceJS) (dataSources : List DataSource)
    (visualizations : List Manifest) : Except String Essence :=
  let visualization := visualizations.find? (fun v => v.id = p.visualization)
  let dataSourceFound := dataSources.find? (fun ds => ds.name = p.dataSource)
  match Timezone.fromJS p.timezone with
  | .error m => .error m
  | .ok timezone =>
    match dataSourceFound with
    | none => .error "TypeError: Cannot read property dimensions of undefined"
    | some dataSource =>
      match Filter.fromJS p.filter with
      | .error m => .error m
      | .ok filter0 =>
        let filter := filter0.constrainToDimensions dataSource.dimensions dataSource.timeAttribute none
        match Filter.fromJS p.requiredFilter with
        | .error m => .error m
        | .ok requiredFilter0 =>
          let requiredFilter := requiredFilter0.constrainToDimensions dataSource.dimensions dataSource.timeAttribute none
          match Splits.fromJS p.splits with
          | .error m => .error m
          | .ok splits0 =>
            let splits := splits0.constrainToDimensions dataSource.dimensions
            match strSetFromJS p.selectedMeasures with
            | .error m => .error m
            | .ok selectedMeasures0 =>
              let selectedMeasures := constrainMeasures selectedMeasures0 dataSource
              match strSetFromJS p.pinnedDimensions with
              | .error m => .error m
              | .ok pinnedDimensions0 =>
                let pinnedDimensions := constrainDimensions pinnedDimensions0 dataSource
                let defaultSortMeasureName := dataSource.defaultSortMeasure
                match (if p.colors.jsTruthy then (Colors.fromJS p.colors).map some else .ok none) with
                | .error m => .error m
                | .ok colors =>
                  let pinnedSort0 :=
                    match p.pinnedSort with
                    | .str s => if s ≠ "" then s else defaultSortMeasureName
                    | _ => defaultSortMeasureName
                  let pinnedSort :=
                    if (dataSource.getMeasure pinnedSort0).isSome then pinnedSort0
                    else defaultSortMeasureName
                  match (if p.compare.jsTruthy then
                          (Filter.fromJS p.compare).map (fun f =>
                            some (f.constrainToDimensions dataSource.dimensions dataSource.timeAttribute none))
                         else .ok none) with
                  | .error m => .error m
                  | .ok compare =>
                    match (if p.highlight.jsTruthy then
                            (Highlight.fromJS p.highlight).map (fun h =>
                              some (h.constrainToDimensions dataSource.dimensions dataSource.timeAttribute))
                           else .ok none) with
                    | .error m => .error m
                    | .ok highlight =>
                      Essence.construct
                        { dataSources := dataSources
                          visualizations := visualizations
                          dataSource := some dataSource
                          visualization := visualization
                          timezone := timezone
                          filter := filter
                          requiredFilter := requiredFilter
                          splits := splits
                          selectedMeasures := selectedMeasures
                          pinnedDimensions := pinnedDimensions
                          colors := colors
                          pinnedSort := pinnedSort
                          compare := compare
                          highlight := highlight }

/-- The `/`-separated segments of a hash, after stripping one leading `#`. -/
def hashParts (hash : String) : List (List Char) :=
  splitOnChar '/' (if hash.data.head? = some '#' then hash.data.tail else hash.data)

/-- The compressed payload: everything after the first three segments,
re-joined on `/` (compressed base64 may itself contain `/`). -/
def hashPayload (hash : String) : List Char :=
  intercalateChar '/' ((hashParts hash).drop 3)

/-- `fromHash` (source): strip `#`, split on `/`, check segment count and
version, decompress, wrap in `[ ]`, JSON-parse, check the array length range,
and reconstruct via `fromJS`; every failure — including an exception thrown
inside `fromJS` — is converted to `none`. -/
def Essence.fromHash (hash : String) (dataSources : List DataSource)
    (visualizations : List Manifest) : Option Essence :=
  let parts := hashParts hash
  if parts.length < 4 then none
  else
    let dataSource := String.mk (parts.headD [])
    let visualization := String.mk ((parts.drop 1).headD [])
    let version := parseIntJS ((parts.drop 2).headD [])
    if version ≠ some 1 then none
    else
      match decompressFromBase64 (hashPayload hash) with
      | none => none
      | some payload =>
        match jsonParse ('[' :: payload ++ [']']) with
        | none => none
        | some (JSValue.arr jsArray) =>
          let l := jsArray.toList
          if 6 ≤ l.length ∧ l.length ≤ 9 then
            match Essence.fromJS
              { dataSource := dataSource
                visualization := visualization
                timezone := l.getD 0 .null
                filter := l.getD 1 .null
                requiredFilter := l.getD 2 .null
                splits := l.getD 3 .null
                selectedMeasures := l.getD 4 .null
                pinnedDimensions := l.getD 5 .null
                pinnedSort := l.getD 6 .null
                colors := jsOrNull (l.getD 7 .null)
                compare := jsOrNull (l.getD 8 .null)
                highlight := jsOrNull (l.getD 9 .null) } dataSources visualizations with
            | .ok essence => some essence
            | .error _ => none
          else none
        | some _ => none

/-- `fromDataSource` (source): build the dataset-default state — default
timezone and filter (with the first required clause folded in and the default
trailing time window applied), the default split dimension bound to the time
range, the first four measures selected, default pinned dimensions and sort. -/
def Essence.fromDataSource (dataSource : DataSource) (dataSources : List DataSource)
    (visualizations : List Manifest) : Except String Essence :=
  let timezone := dataSource.defaultTimezone
  let requiredFilter := dataSource.requiredFilter
  let filter0 := dataSource.defaultFilter
  let filter1 :=
    match requiredFilter.clauses with
    | [] => filter0
    | c :: _ => filter0.setClause c
  let filter :=
    match dataSource.timeAttribute with
    | some ta =>
      let now := dataSource.getMaxTimeDate
      let timeRange : TimeRange := ⟨now - dataSource.defaultDuration, now⟩
      filter1.setTimeRange ta timeRange
    | none => filter1
  let splits :=
    match dataSource.defaultSplitDimension with
    | some defaultSplitDimension =>
      let s1 :=
        match dataSource.getDimension defaultSplitDimension with
        | some dim => Splits.fromSplitCombine (SplitCombine.fromExpression dim.name)
        | none => Splits.EMPTY
      match dataSource.timeAttribute with
      | some ta => s1.updateWithTimeRange ta (filter.getTimeRange ta) timezone false
      | none => s1
    | none => Splits.EMPTY
  Essence.construct
    { dataSources := dataSources
      visualizations := visualizations
      dataSource := some dataSource
      visualization := none
      timezone := timezone
      filter := filter
      requiredFilter := requiredFilter
      splits := splits
      selectedMeasures := (dataSource.measures.take 4).map (fun m => m.name)
      pinnedDimensions := dataSource.defaultPinnedDimensions
      colors := none
      pinnedSort := dataSource.defaultSortMeasure
      compare := none
      highlight := none }

/-- `getTimeAttribute` (source). -/
def Essence.getTimeAttribute (e : Essence) : Option String :=
  e.dataSource.timeAttribute

/-- `getEffectiveFilter` (source): the working filter with a pending highlight
from a different owner applied, optionally unfiltering one dimension. -/
def Essence.getEffectiveFilter (e : Essence) (highlightId : Option String)
    (unfilterDimension : Option Dimension) : Filter :=
  let filter :=
    match e.highlight with
    | some h => if highlightId ≠ some h.owner then h.applyToFilter e.filter else e.filter
    | none => e.filter
  match unfilterDimension with
  | some d => filter.remove d.name
  | none => filter

/-- `changeDataSource` (source): an unknown name is fatal; a dataset equal to
its catalog entry rebuilds from dataset defaults via `fromDataSource`; a
same-named dataset with different content (a refresh of the selected dataset)
re-validates every field against the new dataset. -/
def Essence.changeDataSource (e : Essence) (dataSource : DataSource) : Except String Essence :=
  let dataSources := e.dataSources
  let visualizations := e.visualizations
  let dataSourceName := dataSource.name
  match dataSources.find? (fun ds => ds.name = dataSourceName) with
  | none => .error ("unknown DataSource changed: " ++ dataSourceName)
  | some existingDataSource =>
    if existingDataSource = dataSource then
      Essence.fromDataSource dataSource dataSources visualizations
    else if e.dataSource.name ≠ dataSource.name then
      .error "can not change non-selected dataSource"
    else
      let oldDataSource := e.dataSource
      let newColors :=
        match e.colors with
        | some c => if (dataSource.getDimension c.dimension).isNone then none else some c
        | none => none
      let newPinnedSort :=
        if (dataSource.getMeasure e.pinnedSort).isNone then dataSource.defaultSortMeasure
        else e.pinnedSort
      Essence.construct
        { e.valueOf with
          dataSource := some dataSource
          dataSources := dataSources.map (fun (ds : DataSource) => if ds.name = dataSourceName then dataSource else ds)
          filter := e.filter.constrainToDimensions dataSource.dimensions dataSource.timeAttribute oldDataSource.timeAttribute
          requiredFilter := e.requiredFilter.constrainToDimensions dataSource.dimensions dataSource.timeAttribute oldDataSource.timeAttribute
          splits := e.splits.constrainToDimensions dataSource.dimensions
          selectedMeasures := constrainMeasures e.selectedMeasures dataSource
          pinnedDimensions := constrainDimensions e.pinnedDimensions dataSource
          colors := newColors
          pinnedSort := newPinnedSort
          compare := e.compare.map (fun compare =>
            compare.constrainToDimensions dataSource.dimensions dataSource.timeAttribute none)
          highlight := e.highlight.map (fun highlight =>
            highlight.constrainToDimensions dataSource.dimensions dataSource.timeAttribute) }

/-- `changeFilter` (source): install the new filter (optionally clearing the
highlight); if the time attribute's range actually changed, re-derive the
splits bound to it with the new range. -/
def Essence.changeFilter (e : Essence) (filter : Filter) (removeHighlight : Bool) :
    Except String Essence :=
  let newHighlight := if removeHighlight then none else e.highlight
  let newSplits :=
    match e.getTimeAttribute with
    | some timeAttribute =>
      let oldTimeRange := e.filter.getTimeRange timeAttribute
      let newTimeRange := filter.getTimeRange timeAttribute
      match newTimeRange with
      | some nr =>
        if some nr ≠ oldTimeRange then
          e.splits.updateWithTimeRange timeAttribute (some nr) e.timezone true
        else e.splits
      | none => e.splits
    | none => e.splits
  Essence.construct { e.valueOf with filter := filter, highlight := newHighlight, splits := newSplits }

/-- `changeTimeRange` (source). -/
def Essence.changeTimeRange (e : Essence) (timeRange : TimeRange) : Except String Essence :=
  match e.getTimeAttribute with
  | some timeAttribute => e.changeFilter (e.filter.setTimeRange timeAttribute timeRange) false
  | none => e.changeFilter e.filter false

/-- `changeSplits` (source): re-bind time splits to the current filter range;
in manual mode force the KeepAlways strategy; otherwise re-resolve the
visualization (FairGame pretends nothing is current); a pending highlight is
folded into the filter and cleared. -/
def Essence.changeSplits (e : Essence) (splits : Splits) (strategy : VisStrategy) :
    Except String Essence :=
  let splits :=
    match e.getTimeAttribute with
    | some timeAttribute =>
      splits.updateWithTimeRange timeAttribute (e.filter.getTimeRange timeAttribute) e.timezone false
    | none => splits
  let strategy := if e.visResolve.isManual then VisStrategy.KeepAlways else strategy
  match (if strategy ≠ VisStrategy.KeepAlways then
          match getBestVisualization e.visualizations e.dataSource splits e.colors
            (if strategy = VisStrategy.FairGame then none else some e.visualization.id) with
          | some vr => some vr.visualization
          | none => none
         else some e.visualization) with
  | none => .error "TypeError: no visualization could be resolved"
  | some visualization =>
    let newFilter :=
      match e.highlight with
      | some h => h.applyToFilter e.filter
      | none => e.filter
    let newHighlight : Option Highlight :=
      match e.highlight with
      | some _ => none
      | none => e.highlight
    Essence.construct
      { e.valueOf with
        splits := splits
        visualization := some visualization
        filter := newFilter
        highlight := newHighlight }

/-- `toggleMeasure` (source): removing deletes the name; adding re-derives the
selection by filtering the dataset's canonical measure order down to
"currently selected or the newly added". -/
def Essence.toggleMeasure (e : Essence) (measure : Measure) : Except String Essence :=
  let dataSource := e.dataSource
  let value := e.valueOf
  let selectedMeasures := value.selectedMeasures
  let measureName := measure.name
  if selectedMeasures.contains measureName then
    Essence.construct { value with selectedMeasures := selectedMeasures.erase measureName }
  else
    Essence.construct
      { value with
        selectedMeasures :=
          (dataSource.measures.map (fun m => m.name)).filter
            (fun name => selectedMeasures.contains name || name == measureName) }

/-- `acceptHighlight` (source): fold a pending highlight into the filter and
clear it (no-op returning the same state when none is pending). -/
def Essence.acceptHighlight (e : Essence) : Except String Essence :=
  match e.highlight with
  | none => .ok e
  | some h => e.changeFilter (h.applyToFilter e.filter) true

/-- `changeHighlight` (source): a pending highlight from a different owner is
first folded into the filter; then the new highlight is installed. -/
def Essence.changeHighlight (e : Essence) (owner : String) (delta : Filter) :
    Except String Essence :=
  match e.highlight with
  | some h =>
    if h.owner ≠ owner then
      match e.changeFilter (h.applyToFilter e.filter) false with
      | .error m => .error m
      | .ok e1 =>
        Essence.construct { e1.valueOf with highlight := some ⟨owner, delta⟩ }
    else Essence.construct { e.valueOf with highlight := some ⟨owner, delta⟩ }
  | none => Essence.construct { e.valueOf with highlight := some ⟨owner, delta⟩ }

/-- `dropHighlight` (source): clear unconditionally without folding. -/
def Essence.dropHighlight (e : Essence) : Except String Essence :=
  Essence.construct { e.valueOf with highlight := none }

/-! ### The `FilterClause` collaborator (translated from
`src/common/models/filter-clause/filter-clause.ts`) -/

/-- Modelled from the spec: the plywood values a `FilterClause` may be handed —
only the `set` alternative satisfies `Set.isSet`. -/
inductive PlyValue where
  | set (elems : List String) : PlyValue
  | timeRange (r : TimeRange) : PlyValue
  | str (s : String) : PlyValue
  | num (n : Nat) : PlyValue
  | null : PlyValue
deriving DecidableEq

/-- Modelled from the spec: plywood `Set.isSet`. -/
def PlyValue.isSet : PlyValue → Bool
  | .set _ => true
  | _ => false

/-- `FilterClauseValue` (source): the constructor parameter record; `exclude`
and `required` are optional. -/
structure FilterClauseValue where
  expression : String
  values : PlyValue
  exclude : Option Bool
  required : Option Bool
deriving DecidableEq

/-- `FilterClause` (source): expression (modelled by the referenced dimension
name), values, exclude and required flags. -/
structure FilterClause where
  expression : String
  values : PlyValue
  exclude : Bool
  required : Bool
deriving DecidableEq

/-- The `FilterClause` constructor (source lines 62–68): store expression and
values, throw `'must be a set'` unless the values are a plywood Set, then
default `exclude`/`required` to `false` (`parameters.exclude || false`). -/
def FilterClause.construct (p : FilterClauseValue) : Except String FilterClause :=
  if p.values.isSet then
    .ok ⟨p.expression, p.values, p.exclude.getD false, p.required.getD false⟩
  else .error "must be a set"

/-! ### Well-formedness of constructed states -/

/-- The invariant every state produced by `Essence.construct` satisfies: a
non-empty dataset catalog, a cached verdict that is the resolver's verdict for
the current (dataset, splits, colors) triple, and a verdict that is never
"needs automatic adjustment". -/
def Essence.WF (e : Essence) : Prop :=
  e.dataSources.isEmpty = false ∧
  e.visResolve = e.visualization.handleCircumstance e.dataSource e.splits e.colors true ∧
  e.visResolve.isAutomatic = false

/-! ### Concrete test fixture (used by witnesses and counterexamples) -/

def dTime : Dimension := ⟨"time"⟩
def dPage : Dimension := ⟨"page"⟩
def mCount : Measure := ⟨"count"⟩
def mAdded : Measure := ⟨"added"⟩
def mDeleted : Measure := ⟨"deleted"⟩
def mPages : Measure := ⟨"pages"⟩

def wiki : DataSource :=
  { name := "wiki", dimensions := [dTime, dPage], measures := [mCount, mAdded, mDeleted, mPages],
    timeAttribute := some "time", maxTime := 1000, defaultTimezone := ⟨"Etc/UTC"⟩,
    defaultDuration := 100, defaultFilter := ⟨[]⟩, requiredFilter := ⟨[]⟩,
    defaultPinnedDimensions := ["page"], defaultSortMeasure := "count",
    defaultSplitDimension := none }

/-- A catalog entry with a different name (for unknown-dataset scenarios). -/
def wikiOther : DataSource := { wiki with name := "other" }

/-- The same logical dataset with updated content (a metadata refresh). -/
def wikiRefreshed : DataSource := { wiki with measures := [mCount, mAdded, mDeleted] }

/-- A second, different dataset present in a two-entry catalog. -/
def wikiB : DataSource := { wiki with name := "b" }

def visTotals : Manifest := ⟨"totals", fun _ _ _ _ => .ready false⟩

def visManualOnly : Manifest := ⟨"manual-only", fun _ _ _ _ => .manual⟩

/-- Suggests an adjustment on empty splits; ready once the splits are
non-empty. -/
def visAutoGood : Manifest :=
  ⟨"auto-good", fun _ s _ _ =>
    if s.splits.isEmpty then .automatic ⟨⟨[⟨"page", none⟩]⟩, none⟩ else .ready true⟩

/-- Suggests an adjustment that leaves the splits empty, so the single re-pass
is still not ready. -/
def visAutoBad : Manifest :=
  ⟨"auto-bad", fun _ s _ _ =>
    if s.splits.isEmpty then .automatic ⟨Splits.EMPTY, none⟩ else .ready true⟩

def fTime : Filter := ⟨[⟨"time", .time ⟨900, 1000⟩, false⟩]⟩

def fCust : Filter := ⟨[⟨"time", .time ⟨900, 1000⟩, false⟩, ⟨"page", .strs ["Foo"], false⟩]⟩

def ePlain : Essence :=
  { dataSources := [wiki], visualizations := [visTotals], dataSource := wiki,
    visualization := visTotals, timezone := ⟨"Etc/UTC"⟩, filter := fTime,
    requiredFilter := ⟨[]⟩, splits := ⟨[⟨"time", some ⟨900, 1000⟩⟩]⟩,
    selectedMeasures := ["count"], pinnedDimensions := ["page"], colors := none,
    pinnedSort := "count", compare := none, highlight := none, visResolve := .ready false }

def hlBar : Highlight := ⟨"bar", ⟨[⟨"page", .strs ["x"], false⟩]⟩⟩

/-- A state with a pending highlight. -/
def eHL : Essence := { ePlain with highlight := some hlBar }

/-- A state with colors and compare set (highlight absent). -/
def eCC : Essence :=
  { ePlain with colors := some ⟨"page"⟩, compare := some ⟨[⟨"page", .strs ["a"], false⟩]⟩ }

/-- A state whose selection order differs from the dataset-declared order. -/
def eBA : Essence := { ePlain with selectedMeasures := ["added", "count"] }

/-- A state with a user-customized filter (extra `page` clause). -/
def eCust : Essence := { ePlain with filter := fCust }

/-- The customized state inside a two-dataset catalog. -/
def eCust2 : Essence := { eCust with dataSources := [wiki, wikiB] }

/-- A state whose cached verdict is `manual`. -/
def eMan : Essence :=
  { ePlain with
    visualizations := [visManualOnly]
    visualization := visManualOnly
    visResolve := .manual }

/-- `changeSplits eMan ⟨[⟨"page", none⟩]⟩ _` result. -/
def eManAfter : Essence := { eMan with splits := ⟨[⟨"page", none⟩]⟩ }

/-- The filter `acceptHighlight` produces on `eHL`. -/
def fAcc : Filter :=
  ⟨[⟨"time", .time ⟨900, 1000⟩, false⟩, ⟨"page", .strs ["x"], false⟩]⟩

/-- `acceptHighlight eHL` result. -/
def eHLAfter : Essence := { eHL with filter := fAcc, highlight := none }

/-- A filter whose time range differs from `ePlain`'s. -/
def fMoved : Filter := ⟨[⟨"time", .time ⟨0, 500⟩, false⟩]⟩

/-- A filter with the same time range as `ePlain`'s but an extra non-time
clause. -/
def fSameRange : Filter :=
  ⟨[⟨"time", .time ⟨900, 1000⟩, false⟩, ⟨"page", .strs ["y"], false⟩]⟩

/-- The state `changeDataSource eCust wikiRefreshed` produces: the refreshed
dataset is installed and every field is re-validated in place — the custom
filter survives. -/
def eCustRef : Essence :=
  { eCust with dataSources := [wikiRefreshed], dataSource := wikiRefreshed }

/-- A visualization whose id is not in the `[visTotals]` catalog (used to
encode a hash carrying an unknown visualizationId). -/
def visBogus : Manifest := ⟨"bogus", fun _ _ _ _ => .ready false⟩

/-- `ePlain` rendered under the unknown visualization, so `toHash` emits
`#wiki/bogus/1/...`. -/
def eBogusVis : Essence := { ePlain with visualization := visBogus }


/-- Construction parameters with no visualization supplied (what `fromJS`
passes on when the id lookup fails). -/
def pNoVis : EssenceValue := { ePlain.valueOf with visualization := none }

/-- Construction parameters whose visualization suggests an unusable
adjustment. -/
def pAutoBad : EssenceValue :=
  { ePlain.valueOf with
    visualizations := [visAutoBad]
    visualization := some visAutoBad
    splits := Splits.EMPTY }

/-- The JS-side record `fromHash` hands to `fromJS` when decoding
`toHash ePlain` — its `dataSource` name is `"wiki"`. -/
def essJS2 : EssenceJS :=
  { dataSource := "wiki"
    visualization := "totals"
    timezone := .str "Etc/UTC"
    filter := fTime.toJS
    requiredFilter := Filter.toJS ⟨[]⟩
    splits := Splits.toJS ⟨[⟨"time", some ⟨900, 1000⟩⟩]⟩
    selectedMeasures := .arr (JSArr.ofList [.str "count"])
    pinnedDimensions := .arr (JSArr.ofList [.str "page"])
    pinnedSort := .null
    colors := .null
    compare := .null
    highlight := .null }

/-- The decoded JS record with an unknown visualizationId. -/
def essJSBogus : EssenceJS := { essJS2 with visualization := "bogus" }

/-- Construction parameters whose visualization suggests a usable
adjustment. -/
def pAutoGood : EssenceValue :=
  { ePlain.valueOf with
    visualizations := [visAutoGood]
    visualization := some visAutoGood
    splits := Splits.EMPTY }

/-! ## Theorems -/

/-! ### Helper lemmas about `Resolve` and `Essence.construct` -/

theorem Resolve.not_automatic_of_isReady (r : Resolve) (h : r.isReady = true) :
    r.isAutomatic = false := by
  cases r <;> simp_all [Resolve.isReady, Resolve.isAutomatic]

/-- Everything `Essence.construct` guarantees about a successfully constructed
state: which parameter fields are taken verbatim, the non-empty catalog, and
the cached-verdict invariant. -/
theorem construct_ok_inv {p : EssenceValue} {e : Essence}
    (h : Essence.construct p = .ok e) :
    e.dataSources = p.dataSources ∧ e.visualizations = p.visualizations ∧
    p.dataSource = some e.dataSource ∧ e.timezone = p.timezone ∧
    e.filter = p.filter ∧ e.requiredFilter = p.requiredFilter ∧
    e.selectedMeasures = p.selectedMeasures ∧ e.pinnedDimensions = p.pinnedDimensions ∧
    e.pinnedSort = p.pinnedSort ∧ e.compare = p.compare ∧ e.highlight = p.highlight ∧
    p.dataSources.isEmpty = false ∧
    (∀ v, p.visualization = some v → e.visualization = v) ∧
    e.visResolve = e.visualization.handleCircumstance e.dataSource e.splits e.colors true ∧
    e.visResolve.isAutomatic = false := by
  have hchoose : ∀ (ds0 : DataSource) (v : Manifest), p.visualization = some v →
      chooseVisualization p ds0 = some v := by
    intro ds0 v hv
    unfold chooseVisualization
    rw [hv]
  unfold Essence.construct at h
  split at h
  · exact absurd h (by simp)
  · rename_i hne
    split at h
    · exact absurd h (by simp)
    · rename_i ds hds
      split at h
      · exact absurd h (by simp)
      · rename_i vis hvis
        cases hcirc : vis.handleCircumstance ds p.splits p.colors true with
        | automatic adj =>
          rw [hcirc] at h
          dsimp only at h
          split at h
          · rename_i hready
            rw [Except.ok.injEq] at h
            subst h
            refine ⟨rfl, rfl, hds, rfl, rfl, rfl, rfl, rfl, rfl, rfl, rfl, by simpa using hne, ?_, rfl, ?_⟩
            · intro v hv
              have := (hchoose ds v hv).symm.trans hvis
              simp only [Option.some.injEq] at this
              exact this.symm
            · exact Resolve.not_automatic_of_isReady _ hready
          · exact absurd h (by simp)
        | ready hc =>
          rw [hcirc] at h
          dsimp only at h
          rw [Except.ok.injEq] at h
          subst h
          refine ⟨rfl, rfl, hds, rfl, rfl, rfl, rfl, rfl, rfl, rfl, rfl, by simpa using hne, ?_, hcirc.symm, rfl⟩
          intro v hv
          have := (hchoose ds v hv).symm.trans hvis
          simp only [Option.some.injEq] at this
          exact this.symm
        | manual =>
          rw [hcirc] at h
          dsimp only at h
          rw [Except.ok.injEq] at h
          subst h
          refine ⟨rfl, rfl, hds, rfl, rfl, rfl, rfl, rfl, rfl, rfl, rfl, by simpa using hne, ?_, hcirc.symm, rfl⟩
          intro v hv
          have := (hchoose ds v hv).symm.trans hvis
          simp only [Option.some.injEq] at this
          exact this.symm
        | never =>
          rw [hcirc] at h
          dsimp only at h
          rw [Except.ok.injEq] at h
          subst h
          refine ⟨rfl, rfl, hds, rfl, rfl, rfl, rfl, rfl, rfl, rfl, rfl, by simpa using hne, ?_, hcirc.symm, rfl⟩
          intro v hv
          have := (hchoose ds v hv).symm.trans hvis
          simp only [Option.some.injEq] at this
          exact this.symm

/-- `Essence.construct` on parameters whose chosen visualization resolves
without needing adjustment succeeds and copies every field. -/
theorem construct_not_automatic_ok (p : EssenceValue) (ds : DataSource) (vis : Manifest)
    (hne : p.dataSources.isEmpty = false) (hds : p.dataSource = some ds)
    (hvis : p.visualization = some vis)
    (hna : (vis.handleCircumstance ds p.splits p.colors true).isAutomatic = false) :
    Essence.construct p = .ok ⟨p.dataSources, p.visualizations, ds, vis, p.timezone, p.filter,
      p.requiredFilter, p.splits, p.selectedMeasures, p.pinnedDimensions, p.colors, p.pinnedSort,
      p.compare, p.highlight, vis.handleCircumstance ds p.splits p.colors true⟩ := by
  have hcv : chooseVisualization p ds = some vis := by
    unfold chooseVisualization
    rw [hvis]
  unfold Essence.construct
  rw [hne]
  simp only [Bool.false_eq_true, if_false, hds, hcv]
  cases hr : vis.handleCircumstance ds p.splits p.colors true with
  | automatic adj => rw [hr] at hna; simp [Resolve.isAutomatic] at hna
  | ready hc => rfl
  | manual => rfl
  | never => rfl

/-- Reconstructing from a value that keeps the circumstance triple (dataset,
splits, colors) and the visualization of a well-formed state succeeds and
reuses the cached verdict. -/
theorem construct_same_circumstance {e : Essence} {v : EssenceValue} (hwf : e.WF)
    (h1 : v.dataSource = some e.dataSource) (h2 : v.visualization = some e.visualization)
    (h3 : v.splits = e.splits) (h4 : v.colors = e.colors) (h5 : v.dataSources = e.dataSources) :
    Essence.construct v = .ok ⟨v.dataSources, v.visualizations, e.dataSource, e.visualization,
      v.timezone, v.filter, v.requiredFilter, v.splits, v.selectedMeasures, v.pinnedDimensions,
      v.colors, v.pinnedSort, v.compare, v.highlight, e.visResolve⟩ := by
  obtain ⟨hne, hres, hna⟩ := hwf
  have h6 : (e.visualization.handleCircumstance e.dataSource v.splits v.colors true).isAutomatic = false := by
    rw [h3, h4, ← hres]; exact hna
  have := construct_not_automatic_ok v e.dataSource e.visualization
    (by rw [h5]; exact hne) h1 h2 h6
  rw [this]
  congr 1
  rw [h3, h4, ← hres]

/-! ### Claim theorems -/

/-- Claim C10: the `FilterClause` constructor throws exactly when the supplied
values are not a plywood Set; on success `exclude` and `required` default to
`false` when absent and the expression/values are stored unchanged. -/
theorem claim_C10_filter_clause (p : FilterClauseValue) :
    ((∃ c, FilterClause.construct p = .ok c) ↔ p.values.isSet = true) ∧
    (∀ c, FilterClause.construct p = .ok c →
      c.expression = p.expression ∧ c.values = p.values ∧
      c.exclude = p.exclude.getD false ∧ c.required = p.required.getD false) := by
  constructor
  · constructor
    · rintro ⟨c, hc⟩
      by_cases h : p.values.isSet
      · exact h
      · unfold FilterClause.construct at hc
        rw [if_neg h] at hc
        exact absurd hc (by simp)
    · intro h
      refine ⟨⟨p.expression, p.values, p.exclude.getD false, p.required.getD false⟩, ?_⟩
      unfold FilterClause.construct
      rw [if_pos h]
  · intro c hc
    unfold FilterClause.construct at hc
    split at hc
    · rw [Except.ok.injEq] at hc
      subst hc
      exact ⟨rfl, rfl, rfl, rfl⟩
    · exact absurd hc (by simp)

/-- Witness for C10 at a concrete input. -/
theorem claim_C10_witness :
    PlyValue.isSet (PlyValue.set ["a"]) = true ∧
    (∃ c, FilterClause.construct ⟨"page", PlyValue.set ["a"], none, some true⟩ = .ok c) :=
  ⟨rfl, (claim_C10_filter_clause ⟨"page", PlyValue.set ["a"], none, some true⟩).1.mpr rfl⟩

/-- Claim C6: a constructed state's cached verdict is never "needs automatic
adjustment"; when the chosen visualization suggests an adjustment, the
constructor re-resolves exactly once with the adjusted splits/colors — a
second verdict that is still not ready is a fatal error, a ready one is cached
together with the adjusted fields. -/
theorem claim_C6_construct_verdict :
    (∀ (p : EssenceValue) (e : Essence), Essence.construct p = .ok e →
      e.visResolve.isAutomatic = false) ∧
    (∀ (p : EssenceValue) (ds : DataSource) (vis : Manifest) (adj : Adjustment),
      p.dataSources.isEmpty = false → p.dataSource = some ds → p.visualization = some vis →
      vis.handleCircumstance ds p.splits p.colors true = .automatic adj →
      (vis.handleCircumstance ds adj.splits adj.colors true).isReady = false →
      Essence.construct p = .error "visualization must be ready after automatic adjustment") ∧
    (∀ (p : EssenceValue) (ds : DataSource) (vis : Manifest) (adj : Adjustment),
      p.dataSources.isEmpty = false → p.dataSource = some ds → p.visualization = some vis →
      vis.handleCircumstance ds p.splits p.colors true = .automatic adj →
      (vis.handleCircumstance ds adj.splits adj.colors true).isReady = true →
      ∃ e, Essence.construct p = .ok e ∧ e.splits = adj.splits ∧ e.colors = adj.colors ∧
        e.visResolve = vis.handleCircumstance ds adj.splits adj.colors true) := by
  refine ⟨?_, ?_, ?_⟩
  · intro p e h
    exact (construct_ok_inv h).2.2.2.2.2.2.2.2.2.2.2.2.2.2
  · intro p ds vis adj hne hds hvis hadj hnr
    have hcv : chooseVisualization p ds = some vis := by
      unfold chooseVisualization
      rw [hvis]
    unfold Essence.construct
    rw [hne]
    simp only [Bool.false_eq_true, if_false, hds, hcv, hadj]
    rw [hnr]
    rfl
  · intro p ds vis adj hne hds hvis hadj hr
    have hcv : chooseVisualization p ds = some vis := by
      unfold chooseVisualization
      rw [hvis]
    refine ⟨⟨p.dataSources, p.visualizations, ds, vis, p.timezone, p.filter, p.requiredFilter,
      adj.splits, p.selectedMeasures, p.pinnedDimensions, adj.colors, p.pinnedSort, p.compare,
      p.highlight, vis.handleCircumstance ds adj.splits adj.colors true⟩, ?_, rfl, rfl, rfl⟩
    unfold Essence.construct
    rw [hne]
    simp only [Bool.false_eq_true, if_false, hds, hcv, hadj]
    rw [hr]
    rfl

/-- Witness for C6: a catalog whose adjustment pass cannot succeed throws;
one whose adjustment pass succeeds caches the adjusted splits and the second
verdict. -/
theorem claim_C6_witness :
    Essence.construct pAutoBad = .error "visualization must be ready after automatic adjustment" ∧
    (∃ e, Essence.construct pAutoGood = .ok e ∧ e.splits = ⟨[⟨"page", none⟩]⟩ ∧ e.colors = none ∧
      e.visResolve = visAutoGood.handleCircumstance wiki ⟨[⟨"page", none⟩]⟩ none true) :=
  ⟨claim_C6_construct_verdict.2.1 pAutoBad wiki visAutoBad ⟨Splits.EMPTY, none⟩ rfl rfl rfl rfl rfl,
   claim_C6_construct_verdict.2.2 pAutoGood wiki visAutoGood ⟨⟨[⟨"page", none⟩]⟩, none⟩ rfl rfl rfl rfl rfl⟩

/-- Claim C9: when the cached verdict is `manual`, `changeSplits` keeps the
current visualization for every splits argument and every strategy. -/
theorem claim_C9_manual_sticky (e : Essence) (splits : Splits) (strategy : VisStrategy)
    (hman : e.visResolve.isManual = true) :
    ∀ e', e.changeSplits splits strategy = .ok e' → e'.visualization = e.visualization := by
  intro e' h
  unfold Essence.changeSplits at h
  rw [hman] at h
  simp only [if_true, ne_eq, not_true_eq_false, reduceIte] at h
  exact (construct_ok_inv h).2.2.2.2.2.2.2.2.2.2.2.2.1 e.visualization rfl

/-- Witness for C9 at a concrete manual-mode state. -/
theorem claim_C9_witness : eManAfter.visualization = eMan.visualization :=
  claim_C9_manual_sticky eMan ⟨[⟨"page", none⟩]⟩ VisStrategy.FairGame rfl eManAfter rfl

/-- Claim C1 (code bug): encoding a state with a pending highlight produces a
ten-element payload, which `fromHash`'s `[6, 9]` length guard rejects, so
`decode(encode(state))` yields no state instead of an equal one; without a
highlight the round-trip does hold (shown for the bare state and for the
colors-and-compare state). -/
theorem claim_C1_highlight_roundtrip_fails :
    Essence.fromHash (Essence.toHash eHL) [wiki] [visTotals] = none ∧
    eHL.highlight.isSome = true ∧
    (Essence.fromHash (Essence.toHash ePlain) [wiki] [visTotals]).map (Essence.equals ePlain) =
      some true ∧
    (Essence.fromHash (Essence.toHash eCC) [wiki] [visTotals]).map (Essence.equals eCC) =
      some true :=
  ⟨rfl, rfl, rfl, rfl⟩

/-- Counterexample for C5 as stated: toggling `deleted` on and then off from
the selection `["added", "count"]` ends at `["count", "added"]` — the same
set, but not the prior `OrderedSet` value (immutable-js `OrderedSet.equals`
is order-sensitive). -/
theorem claim_C5_counterexample :
    eBA.selectedMeasures = ["added", "count"] ∧
    ((eBA.toggleMeasure mDeleted).bind (fun e1 => e1.toggleMeasure mDeleted)).map
      (fun e => e.selectedMeasures) = .ok ["count", "added"] ∧
    (["count", "added"] : List String) ≠ ["added", "count"] :=
  ⟨rfl, rfl, by decide⟩

/-- Everything a successful `fromHash` decode implies: enough segments, a
version parsing as `1`, a decompressible payload whose bracket-wrapped form
JSON-parses to an array with length in `[6, 9]`, and a `fromJS`
reconstruction that did not throw. -/
theorem fromHash_some_inv {hash : String} {dss : List DataSource} {viss : List Manifest}
    {e : Essence} (h : Essence.fromHash hash dss viss = some e) :
    ¬(hashParts hash).length < 4 ∧
    parseIntJS (((hashParts hash).drop 2).headD []) = some 1 ∧
    ∃ p l, decompressFromBase64 (hashPayload hash) = some p ∧
      jsonParse ('[' :: p ++ [']']) = some (JSValue.arr l) ∧
      (6 ≤ l.toList.length ∧ l.toList.length ≤ 9) ∧
      Essence.fromJS
        { dataSource := String.mk ((hashParts hash).headD [])
          visualization := String.mk (((hashParts hash).drop 1).headD [])
          timezone := l.toList.getD 0 .null
          filter := l.toList.getD 1 .null
          requiredFilter := l.toList.getD 2 .null
          splits := l.toList.getD 3 .null
          selectedMeasures := l.toList.getD 4 .null
          pinnedDimensions := l.toList.getD 5 .null
          pinnedSort := l.toList.getD 6 .null
          colors := jsOrNull (l.toList.getD 7 .null)
          compare := jsOrNull (l.toList.getD 8 .null)
          highlight := jsOrNull (l.toList.getD 9 .null) } dss viss = .ok e := by
  unfold Essence.fromHash at h
  by_cases h1 : (hashParts hash).length < 4
  · rw [if_pos h1] at h
    exact absurd h (by simp)
  · rw [if_neg h1] at h
    by_cases h2 : parseIntJS (((hashParts hash).drop 2).headD []) ≠ some 1
    · rw [if_pos h2] at h
      exact absurd h (by simp)
    · rw [if_neg h2] at h
      refine ⟨h1, not_not.mp h2, ?_⟩
      cases hp : decompressFromBase64 (hashPayload hash) with
      | none =>
        rw [hp] at h
        exact absurd h (by simp)
      | some p =>
        rw [hp] at h
        dsimp only at h
        cases hj : jsonParse ('[' :: p ++ [']']) with
        | none =>
          rw [hj] at h
          exact absurd h (by simp)
        | some v =>
          rw [hj] at h
          cases v with
          | arr l =>
            dsimp only at h
            by_cases hr : 6 ≤ l.toList.length ∧ l.toList.length ≤ 9
            · rw [if_pos hr] at h
              cases hfj : Essence.fromJS
                  { dataSource := String.mk ((hashParts hash).headD [])
                    visualization := String.mk (((hashParts hash).drop 1).headD [])
                    timezone := l.toList.getD 0 .null
                    filter := l.toList.getD 1 .null
                    requiredFilter := l.toList.getD 2 .null
                    splits := l.toList.getD 3 .null
                    selectedMeasures := l.toList.getD 4 .null
                    pinnedDimensions := l.toList.getD 5 .null
                    pinnedSort := l.toList.getD 6 .null
                    colors := jsOrNull (l.toList.getD 7 .null)
                    compare := jsOrNull (l.toList.getD 8 .null)
                    highlight := jsOrNull (l.toList.getD 9 .null) } dss viss with
              | ok e0 =>
                rw [hfj] at h
                dsimp only at h
                rw [Option.some.injEq] at h
                subst h
                exact ⟨p, l, rfl, hj, hr, hfj⟩
              | error m =>
                rw [hfj] at h
                exact absurd h (by simp)
            · rw [if_neg hr] at h
              exact absurd h (by simp)
          | null => exact absurd h (by simp)
          | bool b => exact absurd h (by simp)
          | num n => exact absurd h (by simp)
          | str s => exact absurd h (by simp)

/-- Claim C4: every malformed hash — too few segments, a version that does not
parse as `1`, an undecompressible or un-JSON-parsable payload, or a JSON array
outside the length range `[6, 9]` — decodes to no result; `fromHash` is a
total function, so no decompression or parsing exception can propagate. -/
theorem claim_C4_decode_robustness (hash : String) (dss : List DataSource)
    (viss : List Manifest)
    (h : (hashParts hash).length < 4 ∨
      parseIntJS (((hashParts hash).drop 2).headD []) ≠ some 1 ∨
      decompressFromBase64 (hashPayload hash) = none ∨
      (∃ p, decompressFromBase64 (hashPayload hash) = some p ∧
        jsonParse ('[' :: p ++ [']']) = none) ∨
      (∃ p l, decompressFromBase64 (hashPayload hash) = some p ∧
        jsonParse ('[' :: p ++ [']']) = some (JSValue.arr l) ∧
        ¬(6 ≤ l.toList.length ∧ l.toList.length ≤ 9))) :
    Essence.fromHash hash dss viss = none := by
  cases hres : Essence.fromHash hash dss viss with
  | none => rfl
  | some e =>
    exfalso
    obtain ⟨hlen, hver, p, l, hp, hl, hrange, -⟩ := fromHash_some_inv hres
    rcases h with h | h | h | h | h
    · exact hlen h
    · exact h hver
    · rw [h] at hp
      cases hp
    · obtain ⟨p', hp', hj'⟩ := h
      rw [hp'] at hp
      rw [Option.some.injEq] at hp
      subst hp
      rw [hj'] at hl
      cases hl
    · obtain ⟨p', l', hp', hj', hlen'⟩ := h
      rw [hp'] at hp
      rw [Option.some.injEq] at hp
      subst hp
      rw [hj'] at hl
      rw [Option.some.injEq, JSValue.arr.injEq] at hl
      subst hl
      exact hlen' hrange

/-- Witness for C4: a one-segment string decodes to nothing. -/
theorem claim_C4_witness :
    (hashParts "ab").length < 4 ∧ Essence.fromHash "ab" [] [] = none :=
  ⟨by decide, claim_C4_decode_robustness "ab" [] [] (Or.inl (by decide))⟩

/-- An unknown top-level dataset name makes `fromJS` throw at the first
dereference of the failed catalog lookup. -/
theorem fromJS_unknown_dataSource {p : EssenceJS} {dss : List DataSource}
    {viss : List Manifest} (h : dss.find? (fun ds => ds.name = p.dataSource) = none) :
    ∀ e, Essence.fromJS p dss viss ≠ .ok e := by
  intro e he
  unfold Essence.fromJS at he
  rw [h] at he
  cases htz : Timezone.fromJS p.timezone with
  | error m => rw [htz] at he; exact absurd he (by simp)
  | ok tz => rw [htz] at he; exact absurd he (by simp)

/-- Amended C2: neither unknown top-level name propagates out of the decoder
as a thrown error. (a) An unknown datasetName makes `fromJS` throw at the
failed catalog dereference, but `fromHash`'s catch-all converts that into the
same `none` outcome as every other decode failure. (b) An unknown
visualizationId does not even reach a throw: `fromJS` only uses the id for
the catalog lookup, so its entire outcome is independent of which unknown id
was supplied. (c) The lookup miss hands `none` to the constructor, which
auto-resolves the best catalog visualization and succeeds whenever that
choice resolves without adjustment. -/
theorem claim_C2_amended :
    (∀ (hash : String) (dss : List DataSource) (viss : List Manifest),
      dss.find? (fun d => d.name = String.mk ((hashParts hash).headD [])) = none →
      Essence.fromHash hash dss viss = none) ∧
    (∀ (p : EssenceJS) (s : String) (dss : List DataSource) (viss : List Manifest),
      viss.find? (fun v => v.id = p.visualization) = none →
      viss.find? (fun v => v.id = s) = none →
      Essence.fromJS p dss viss = Essence.fromJS { p with visualization := s } dss viss) ∧
    (∀ (p : EssenceValue) (ds : DataSource) (vr : VisualizationAndResolve),
      p.visualization = none → p.dataSources.isEmpty = false → p.dataSource = some ds →
      getBestVisualization p.visualizations ds p.splits p.colors none = some vr →
      (vr.visualization.handleCircumstance ds p.splits p.colors true).isAutomatic = false →
      ∃ e, Essence.construct p = .ok e ∧ e.visualization = vr.visualization) := by
  refine ⟨?_, ?_, ?_⟩
  · intro hash dss viss h
    cases hres : Essence.fromHash hash dss viss with
    | none => rfl
    | some e =>
      exfalso
      obtain ⟨-, -, p, l, -, -, -, hjs⟩ := fromHash_some_inv hres
      exact fromJS_unknown_dataSource h e hjs
  · intro p s dss viss h1 h2
    unfold Essence.fromJS
    dsimp only
    rw [h1, h2]
  · intro p ds vr hnone hne hds hbest hna
    have hcv : chooseVisualization p ds = some vr.visualization := by
      unfold chooseVisualization
      rw [hnone, hbest]
    refine ⟨⟨p.dataSources, p.visualizations, ds, vr.visualization, p.timezone, p.filter,
      p.requiredFilter, p.splits, p.selectedMeasures, p.pinnedDimensions, p.colors, p.pinnedSort,
      p.compare, p.highlight, vr.visualization.handleCircumstance ds p.splits p.colors true⟩,
      ?_, rfl⟩
    unfold Essence.construct
    rw [hne]
    simp only [Bool.false_eq_true, if_false, hds, hcv]
    cases hr : vr.visualization.handleCircumstance ds p.splits p.colors true with
    | automatic adj => rw [hr] at hna; simp [Resolve.isAutomatic] at hna
    | ready hc => rfl
    | manual => rfl
    | never => rfl

/-- Counterexample for C2 as stated, covering both unknown-name cases.
Dataset: decoding `toHash ePlain` against a catalog lacking `"wiki"` returns
`none` — the same hash decodes successfully against the right catalog, and
the reconstruction step alone (`fromJS`) does throw — so the thrown
construction error is converted into the null outcome rather than
propagated. Visualization: a hash carrying the unknown id `"bogus"` neither
throws nor yields null — it decodes to a state whose visualization was
auto-resolved to `"totals"`. -/
theorem claim_C2_counterexample :
    Essence.fromHash (Essence.toHash ePlain) [wikiOther] [visTotals] = none ∧
    (Essence.fromHash (Essence.toHash ePlain) [wiki] [visTotals]).isSome = true ∧
    Essence.fromJS essJS2 [wikiOther] [visTotals] =
      .error "TypeError: Cannot read property dimensions of undefined" ∧
    ([wikiOther].find? (fun ds => ds.name = "wiki")) = none ∧
    ([visTotals].find? (fun v => v.id = "bogus")) = none ∧
    (Essence.fromHash (Essence.toHash eBogusVis) [wiki] [visTotals]).map
      (fun e => e.visualization.id) = some "totals" :=
  ⟨rfl, rfl, rfl, rfl, rfl, rfl⟩

/-- Witness for the amended C2: the dataset half at a concrete hash and
catalog, the visualization half at a concrete record with two unknown ids and
at concrete no-visualization construction parameters. -/
theorem claim_C2_witness :
    ([wikiOther].find? (fun ds =>
      ds.name = String.mk ((hashParts (Essence.toHash ePlain)).headD [])) = none) ∧
    Essence.fromHash (Essence.toHash ePlain) [wikiOther] [visManualOnly] = none ∧
    Essence.fromJS essJSBogus [wiki] [visTotals] =
      Essence.fromJS { essJSBogus with visualization := "zzz" } [wiki] [visTotals] ∧
    (∃ e, Essence.construct pNoVis = .ok e ∧ e.visualization = visTotals) := by
  refine ⟨rfl, claim_C2_amended.1 (Essence.toHash ePlain) [wikiOther] [visManualOnly] rfl,
    claim_C2_amended.2.1 essJSBogus "zzz" [wiki] [visTotals] rfl rfl,
    claim_C2_amended.2.2 pNoVis wiki ⟨visTotals, .ready false⟩ rfl rfl rfl rfl rfl⟩

/-- Claim C7: `acceptHighlight` on a state with a pending highlight produces a
state whose filter is exactly what `getEffectiveFilter()` reported before
acceptance and whose highlight is cleared; with no pending highlight it is a
no-op returning the very same state. -/
theorem claim_C7_accept_highlight (e : Essence) :
    (e.highlight = none → e.acceptHighlight = .ok e) ∧
    (∀ h e', e.highlight = some h → e.acceptHighlight = .ok e' →
      e'.filter = e.getEffectiveFilter none none ∧ e'.highlight = none) := by
  constructor
  · intro hn
    unfold Essence.acceptHighlight
    rw [hn]
  · intro hl e' hsome hok
    unfold Essence.acceptHighlight at hok
    rw [hsome] at hok
    unfold Essence.changeFilter at hok
    have hinv := construct_ok_inv hok
    refine ⟨?_, ?_⟩
    · rw [hinv.2.2.2.2.1]
      simp [Essence.getEffectiveFilter, hsome]
    · rw [hinv.2.2.2.2.2.2.2.2.2.2.1]
      rfl

/-- Witness for C7 at the concrete highlighted state. -/
theorem claim_C7_witness :
    eHLAfter.filter = eHL.getEffectiveFilter none none ∧ eHLAfter.highlight = none :=
  (claim_C7_accept_highlight eHL).2 hlBar eHLAfter rfl rfl

/-- `changeFilter` written as one construction call (pure zeta-reduction of
the source's lets). -/
theorem changeFilter_eq (e : Essence) (f : Filter) (rh : Bool) :
    e.changeFilter f rh = Essence.construct
      { e.valueOf with
        filter := f
        highlight := if rh then none else e.highlight
        splits :=
          match e.getTimeAttribute with
          | some timeAttribute =>
            (match f.getTimeRange timeAttribute with
             | some nr =>
               if some nr ≠ e.filter.getTimeRange timeAttribute then
                 e.splits.updateWithTimeRange timeAttribute (some nr) e.timezone true
               else e.splits
             | none => e.splits)
          | none => e.splits } := rfl

/-- Claim C8: `changeFilter` with a filter whose time range moved re-derives
every split bound to the time attribute to the new range; with an unchanged
time range (only non-time clauses differing) the splits are untouched. -/
theorem claim_C8_time_filter_splits (e : Essence) (f : Filter) (ta : String)
    (hwf : e.WF) (hta : e.getTimeAttribute = some ta) :
    (∀ nr, f.getTimeRange ta = some nr → some nr ≠ e.filter.getTimeRange ta →
      (e.visualization.handleCircumstance e.dataSource
        (e.splits.updateWithTimeRange ta (some nr) e.timezone true) e.colors true).isAutomatic =
        false →
      ∃ e', e.changeFilter f false = .ok e' ∧
        e'.splits = e.splits.updateWithTimeRange ta (some nr) e.timezone true ∧
        ∀ sc ∈ e'.splits.splits, sc.dimension = ta → sc.bucket = some nr) ∧
    (f.getTimeRange ta = e.filter.getTimeRange ta →
      ∃ e', e.changeFilter f false = .ok e' ∧ e'.splits = e.splits) := by
  constructor
  · intro nr hnr hne hna
    have hsp : (match e.getTimeAttribute with
        | some timeAttribute =>
          (match f.getTimeRange timeAttribute with
           | some nr0 =>
             if some nr0 ≠ e.filter.getTimeRange timeAttribute then
               e.splits.updateWithTimeRange timeAttribute (some nr0) e.timezone true
             else e.splits
           | none => e.splits)
        | none => e.splits) = e.splits.updateWithTimeRange ta (some nr) e.timezone true := by
      rw [hta]
      dsimp only
      rw [hnr]
      dsimp only
      rw [if_pos hne]
    have heq : e.changeFilter f false = Essence.construct
        { e.valueOf with
          filter := f
          highlight := e.highlight
          splits := e.splits.updateWithTimeRange ta (some nr) e.timezone true } := by
      rw [changeFilter_eq, hsp]
      rfl
    refine ⟨⟨e.dataSources, e.visualizations, e.dataSource, e.visualization, e.timezone, f,
      e.requiredFilter, e.splits.updateWithTimeRange ta (some nr) e.timezone true,
      e.selectedMeasures, e.pinnedDimensions, e.colors, e.pinnedSort, e.compare, e.highlight,
      e.visualization.handleCircumstance e.dataSource
        (e.splits.updateWithTimeRange ta (some nr) e.timezone true) e.colors true⟩,
      ?_, rfl, ?_⟩
    · rw [heq]
      exact construct_not_automatic_ok _ e.dataSource e.visualization
        hwf.1 rfl rfl hna
    · intro sc hsc hdim
      unfold Splits.updateWithTimeRange at hsc
      obtain ⟨sc0, hsc0, hmap⟩ := List.mem_map.mp hsc
      by_cases hd : sc0.dimension = ta
      · rw [if_pos hd] at hmap
        rw [← hmap]
      · rw [if_neg hd] at hmap
        rw [← hmap] at hdim
        exact absurd hdim hd
  · intro hsame
    have hsp : (match e.getTimeAttribute with
        | some timeAttribute =>
          (match f.getTimeRange timeAttribute with
           | some nr0 =>
             if some nr0 ≠ e.filter.getTimeRange timeAttribute then
               e.splits.updateWithTimeRange timeAttribute (some nr0) e.timezone true
             else e.splits
           | none => e.splits)
        | none => e.splits) = e.splits := by
      rw [hta]
      dsimp only
      cases hfg : f.getTimeRange ta with
      | none => rfl
      | some nr =>
        rw [hfg] at hsame
        dsimp only
        rw [if_neg (not_not_intro hsame)]
    have heq : e.changeFilter f false = Essence.construct
        { e.valueOf with filter := f, highlight := e.highlight, splits := e.splits } := by
      rw [changeFilter_eq, hsp]
      rfl
    refine ⟨⟨e.dataSources, e.visualizations, e.dataSource, e.visualization, e.timezone, f,
      e.requiredFilter, e.splits, e.selectedMeasures, e.pinnedDimensions, e.colors, e.pinnedSort,
      e.compare, e.highlight, e.visResolve⟩, ?_, rfl⟩
    rw [heq]
    exact construct_same_circumstance hwf rfl rfl rfl rfl rfl

/-- Erasing the newly toggled-on name from the re-derived selection recovers
the dataset-order filter of the previously selected names. -/
theorem filter_erase_helper {l sel : List String} {a : String} (hl : l.Nodup)
    (ha : sel.contains a = false) :
    (l.filter (fun n => sel.contains n || n == a)).erase a =
      l.filter (fun n => sel.contains n) := by
  have hanotin : a ∉ sel := fun hmem => by
    have h2 : sel.contains a = true := List.elem_eq_true_of_mem hmem
    rw [h2] at ha
    exact absurd ha (by simp)
  induction l with
  | nil => rfl
  | cons b t ih =>
    have hbt : b ∉ t := (List.nodup_cons.mp hl).1
    have ht : t.Nodup := (List.nodup_cons.mp hl).2
    by_cases hb : b = a
    · subst hb
      rw [List.filter_cons_of_pos (by simp)]
      rw [List.erase_cons_head]
      rw [List.filter_cons_of_neg (by simpa using hanotin)]
      apply List.filter_congr
      intro x hx
      have hxb : x ≠ b := fun hcon => hbt (hcon ▸ hx)
      simp [hxb]
    · by_cases hp : b ∈ sel
      · rw [List.filter_cons_of_pos (by simp [hp]), List.filter_cons_of_pos (by simpa using hp)]
        rw [List.erase_cons_tail (by simp [hb])]
        rw [ih ht]
      · rw [List.filter_cons_of_neg (by simp [hp, hb]), List.filter_cons_of_neg (by simpa using hp)]
        exact ih ht

/-- Membership in the dataset-order filter of the selected names is exactly
membership in the selection (when the selection only names real measures). -/
theorem mem_filter_contains {canonical sel : List String}
    (hsub : ∀ x ∈ sel, x ∈ canonical) (x : String) :
    x ∈ canonical.filter (fun n => sel.contains n) ↔ x ∈ sel := by
  rw [List.mem_filter]
  constructor
  · rintro ⟨-, hc⟩
    exact List.mem_of_elem_eq_true hc
  · intro hx
    exact ⟨hsub x hx, List.elem_eq_true_of_mem hx⟩

/-- `toggleMeasure` written as one construction call. -/
theorem toggleMeasure_eq (e : Essence) (m : Measure) :
    e.toggleMeasure m = Essence.construct
      { e.valueOf with selectedMeasures :=
          (if e.selectedMeasures.contains m.name then e.selectedMeasures.erase m.name
           else (e.dataSource.measures.map (fun mm => mm.name)).filter
             (fun name => e.selectedMeasures.contains name || name == m.name)) } := by
  unfold Essence.toggleMeasure
  dsimp only [Essence.valueOf]
  by_cases hc : e.selectedMeasures.contains m.name
  · rw [if_pos hc, if_pos hc]
  · rw [if_neg hc, if_neg hc]

/-- Replacing only the selected measures keeps the well-formedness
invariant. -/
theorem WF_set_selectedMeasures (e : Essence) (hwf : e.WF) (X : List String) :
    Essence.WF { e with selectedMeasures := X } :=
  ⟨hwf.1, hwf.2.1, hwf.2.2⟩

/-- On a well-formed state `toggleMeasure` always reconstructs successfully,
changing only the selected measures. -/
theorem toggleMeasure_ok (e : Essence) (m : Measure) (hwf : e.WF) :
    e.toggleMeasure m = .ok { e with selectedMeasures :=
      (if e.selectedMeasures.contains m.name then e.selectedMeasures.erase m.name
       else (e.dataSource.measures.map (fun mm => mm.name)).filter
         (fun name => e.selectedMeasures.contains name || name == m.name)) } := by
  rw [toggleMeasure_eq]
  rw [construct_same_circumstance hwf rfl rfl rfl rfl rfl]
  rfl

/-- Amended C5: toggling a measure on and then off restores the selection as a
set, and restores it exactly (as an ordered value) when the prior selection
already follows the dataset-declared measure order; after toggling two
measures on and removing the first, the selection is a sublist of the
dataset-declared order. -/
theorem claim_C5_amended (e : Essence) (m mB : Measure) (hwf : e.WF)
    (hm : m ∈ e.dataSource.measures) (hmB : mB ∈ e.dataSource.measures)
    (hnm : e.selectedMeasures.contains m.name = false)
    (hnmB : e.selectedMeasures.contains mB.name = false)
    (hne : mB.name ≠ m.name)
    (hsub : ∀ x ∈ e.selectedMeasures, x ∈ e.dataSource.measures.map (fun mm => mm.name))
    (hnodup : (e.dataSource.measures.map (fun mm => mm.name)).Nodup) :
    (∃ e1 e2, e.toggleMeasure m = .ok e1 ∧ e1.toggleMeasure m = .ok e2 ∧
      (∀ x, x ∈ e2.selectedMeasures ↔ x ∈ e.selectedMeasures) ∧
      (e.selectedMeasures =
          (e.dataSource.measures.map (fun mm => mm.name)).filter
            (fun n => e.selectedMeasures.contains n) →
        e2.selectedMeasures = e.selectedMeasures)) ∧
    (∃ e1 e2 e3, e.toggleMeasure m = .ok e1 ∧ e1.toggleMeasure mB = .ok e2 ∧
      e2.toggleMeasure m = .ok e3 ∧
      e3.selectedMeasures.Sublist (e.dataSource.measures.map (fun mm => mm.name))) := by
  have hmem_m : m.name ∈ e.dataSource.measures.map (fun mm => mm.name) :=
    List.mem_map.mpr ⟨m, hm, rfl⟩
  have hmem_mB : mB.name ∈ e.dataSource.measures.map (fun mm => mm.name) :=
    List.mem_map.mpr ⟨mB, hmB, rfl⟩
  have t1 : e.toggleMeasure m = .ok { e with selectedMeasures :=
      ((e.dataSource.measures.map (fun mm => mm.name)).filter
        (fun name => e.selectedMeasures.contains name || name == m.name)) } := by
    rw [toggleMeasure_ok e m hwf, hnm]
    simp only [Bool.false_eq_true, if_false]
  have hwf1 := WF_set_selectedMeasures e hwf
    ((e.dataSource.measures.map (fun mm => mm.name)).filter
      (fun name => e.selectedMeasures.contains name || name == m.name))
  have hc1 : ((e.dataSource.measures.map (fun mm => mm.name)).filter
      (fun name => e.selectedMeasures.contains name || name == m.name)).contains m.name = true :=
    List.elem_eq_true_of_mem (List.mem_filter.mpr ⟨hmem_m, by simp⟩)
  constructor
  · have t2 : Essence.toggleMeasure { e with selectedMeasures :=
        ((e.dataSource.measures.map (fun mm => mm.name)).filter
          (fun name => e.selectedMeasures.contains name || name == m.name)) } m =
        .ok { e with selectedMeasures :=
          (((e.dataSource.measures.map (fun mm => mm.name)).filter
            (fun name => e.selectedMeasures.contains name || name == m.name)).erase m.name) } := by
      rw [toggleMeasure_ok _ m hwf1]
      rw [show ({ e with selectedMeasures :=
        ((e.dataSource.measures.map (fun mm => mm.name)).filter
          (fun name => e.selectedMeasures.contains name || name == m.name)) } :
            Essence).selectedMeasures.contains m.name = true from hc1]
      simp only [if_true]
    refine ⟨_, _, t1, t2, ?_, ?_⟩
    · intro x
      show x ∈ ((e.dataSource.measures.map (fun mm => mm.name)).filter
        (fun name => e.selectedMeasures.contains name || name == m.name)).erase m.name ↔
        x ∈ e.selectedMeasures
      rw [filter_erase_helper hnodup hnm]
      exact mem_filter_contains hsub x
    · intro hord
      show ((e.dataSource.measures.map (fun mm => mm.name)).filter
        (fun name => e.selectedMeasures.contains name || name == m.name)).erase m.name =
        e.selectedMeasures
      rw [filter_erase_helper hnodup hnm]
      exact hord.symm
  · have hcB : ((e.dataSource.measures.map (fun mm => mm.name)).filter
        (fun name => e.selectedMeasures.contains name || name == m.name)).contains mB.name =
        false := by
      cases hq : ((e.dataSource.measures.map (fun mm => mm.name)).filter
          (fun name => e.selectedMeasures.contains name || name == m.name)).contains mB.name with
      | false => rfl
      | true =>
        exfalso
        have hmem := List.mem_of_elem_eq_true hq
        have hp := (List.mem_filter.mp hmem).2
        simp only [hnmB, Bool.false_or] at hp
        exact hne (by simpa using hp)
    have t2 : Essence.toggleMeasure { e with selectedMeasures :=
        ((e.dataSource.measures.map (fun mm => mm.name)).filter
          (fun name => e.selectedMeasures.contains name || name == m.name)) } mB =
        .ok { e with selectedMeasures :=
          ((e.dataSource.measures.map (fun mm => mm.name)).filter
            (fun name =>
              ((e.dataSource.measures.map (fun mm => mm.name)).filter
                (fun name0 => e.selectedMeasures.contains name0 || name0 == m.name)).contains
                  name || name == mB.name)) } := by
      rw [toggleMeasure_ok _ mB hwf1]
      rw [show ({ e with selectedMeasures :=
        ((e.dataSource.measures.map (fun mm => mm.name)).filter
          (fun name => e.selectedMeasures.contains name || name == m.name)) } :
            Essence).selectedMeasures.contains mB.name = false from hcB]
      simp only [Bool.false_eq_true, if_false]
    have hwf2 := WF_set_selectedMeasures e hwf
      ((e.dataSource.measures.map (fun mm => mm.name)).filter
        (fun name =>
          ((e.dataSource.measures.map (fun mm => mm.name)).filter
            (fun name0 => e.selectedMeasures.contains name0 || name0 == m.name)).contains
              name || name == mB.name))
    have hc2 : ((e.dataSource.measures.map (fun mm => mm.name)).filter
        (fun name =>
          ((e.dataSource.measures.map (fun mm => mm.name)).filter
            (fun name0 => e.selectedMeasures.contains name0 || name0 == m.name)).contains
              name || name == mB.name)).contains m.name = true :=
      List.elem_eq_true_of_mem (List.mem_filter.mpr ⟨hmem_m, by simp only [hc1, Bool.true_or]⟩)
    have t3 : Essence.toggleMeasure { e with selectedMeasures :=
        ((e.dataSource.measures.map (fun mm => mm.name)).filter
          (fun name =>
            ((e.dataSource.measures.map (fun mm => mm.name)).filter
              (fun name0 => e.selectedMeasures.contains name0 || name0 == m.name)).contains
                name || name == mB.name)) } m =
        .ok { e with selectedMeasures :=
          (((e.dataSource.measures.map (fun mm => mm.name)).filter
            (fun name =>
              ((e.dataSource.measures.map (fun mm => mm.name)).filter
                (fun name0 => e.selectedMeasures.contains name0 || name0 == m.name)).contains
                  name || name == mB.name)).erase m.name) } := by
      rw [toggleMeasure_ok _ m hwf2]
      rw [show ({ e with selectedMeasures :=
        ((e.dataSource.measures.map (fun mm => mm.name)).filter
          (fun name =>
            ((e.dataSource.measures.map (fun mm => mm.name)).filter
              (fun name0 => e.selectedMeasures.contains name0 || name0 == m.name)).contains
                name || name == mB.name)) } : Essence).selectedMeasures.contains m.name = true
        from hc2]
      simp only [if_true]
    refine ⟨_, _, _, t1, t2, t3, ?_⟩
    exact List.Sublist.trans (List.erase_sublist _ _) (List.filter_sublist _)

/-- Witness for the amended C5 at a concrete state: selection
`["added", "count"]`, toggling `deleted` (and `pages` for the two-measure
part). -/
theorem claim_C5_witness :
    (∃ e1 e2, eBA.toggleMeasure mDeleted = .ok e1 ∧ e1.toggleMeasure mDeleted = .ok e2 ∧
      (∀ x, x ∈ e2.selectedMeasures ↔ x ∈ eBA.selectedMeasures) ∧
      (eBA.selectedMeasures =
          (eBA.dataSource.measures.map (fun mm => mm.name)).filter
            (fun n => eBA.selectedMeasures.contains n) →
        e2.selectedMeasures = eBA.selectedMeasures)) ∧
    (∃ e1 e2 e3, eBA.toggleMeasure mDeleted = .ok e1 ∧ e1.toggleMeasure mPages = .ok e2 ∧
      e2.toggleMeasure mDeleted = .ok e3 ∧
      e3.selectedMeasures.Sublist (eBA.dataSource.measures.map (fun mm => mm.name))) :=
  claim_C5_amended eBA mDeleted mPages ⟨rfl, rfl, rfl⟩ (by decide) (by decide) rfl rfl
    (by decide) (by decide) (by decide)

/-- Witness for C8 at the concrete state (moved range and same range). -/
theorem claim_C8_witness :
    (∃ e', ePlain.changeFilter fMoved false = .ok e' ∧
      e'.splits = ePlain.splits.updateWithTimeRange "time" (some ⟨0, 500⟩) ePlain.timezone true ∧
      ∀ sc ∈ e'.splits.splits, sc.dimension = "time" → sc.bucket = some ⟨0, 500⟩) ∧
    (∃ e', ePlain.changeFilter fSameRange false = .ok e' ∧ e'.splits = ePlain.splits) :=
  ⟨(claim_C8_time_filter_splits ePlain fMoved "time" ⟨rfl, rfl, rfl⟩ rfl).1
      ⟨0, 500⟩ rfl (by decide) rfl,
   (claim_C8_time_filter_splits ePlain fSameRange "time" ⟨rfl, rfl, rfl⟩ rfl).2 rfl⟩


/-- Counterexample for C3 as stated: refreshing the selected dataset (same
name, updated content) *keeps* the prior custom filter instead of rebuilding
from fresh catalog defaults, while switching to a different cataloged dataset
*rebuilds from that dataset's defaults* instead of re-validating the old
fields — the spec has the two paths swapped. -/
theorem claim_C3_counterexample :
    ((eCust.changeDataSource wikiRefreshed).map (fun e => e.filter) = .ok fCust) ∧
    ((Essence.fromDataSource wikiRefreshed eCust.dataSources eCust.visualizations).map
      (fun e => e.filter) = .ok fTime) ∧
    fCust ≠ fTime ∧
    ((eCust2.changeDataSource wikiB).map (fun e => e.filter) = .ok fTime) ∧
    fCust.constrainToDimensions wikiB.dimensions wikiB.timeAttribute (some "time") = fCust :=
  ⟨rfl, rfl, by decide, rfl, by decide⟩

/-- Amended C3: an unknown dataset name is a fatal error; passing a dataset
*equal to its catalog entry* (in particular, switching to a different
cataloged dataset) rebuilds the state from that dataset's defaults via
`fromDataSource`; passing a *same-named dataset with different content* (a
refresh of the selected dataset) re-validates filter, required filter, splits,
selected/pinned measures and dimensions, colors, pinned sort, compare, and
highlight against the new dataset; refreshing a non-selected dataset is a
fatal error. -/
theorem claim_C3_amended (e : Essence) (ds : DataSource) :
    (e.dataSources.find? (fun d => d.name = ds.name) = none →
      e.changeDataSource ds = .error ("unknown DataSource changed: " ++ ds.name)) ∧
    (∀ d, e.dataSources.find? (fun d2 => d2.name = ds.name) = some d → d = ds →
      e.changeDataSource ds = Essence.fromDataSource ds e.dataSources e.visualizations) ∧
    (∀ d, e.dataSources.find? (fun d2 => d2.name = ds.name) = some d → d ≠ ds →
      e.dataSource.name ≠ ds.name →
      e.changeDataSource ds = .error "can not change non-selected dataSource") ∧
    (∀ d, e.dataSources.find? (fun d2 => d2.name = ds.name) = some d → d ≠ ds →
      e.dataSource.name = ds.name →
      ∀ e', e.changeDataSource ds = .ok e' →
        e'.dataSource = ds ∧
        e'.filter = e.filter.constrainToDimensions ds.dimensions ds.timeAttribute
          e.dataSource.timeAttribute ∧
        e'.requiredFilter = e.requiredFilter.constrainToDimensions ds.dimensions ds.timeAttribute
          e.dataSource.timeAttribute ∧
        e'.selectedMeasures = constrainMeasures e.selectedMeasures ds ∧
        e'.pinnedDimensions = constrainDimensions e.pinnedDimensions ds ∧
        e'.pinnedSort = (if (ds.getMeasure e.pinnedSort).isNone then ds.defaultSortMeasure
          else e.pinnedSort) ∧
        e'.compare = e.compare.map (fun c =>
          c.constrainToDimensions ds.dimensions ds.timeAttribute none) ∧
        e'.highlight = e.highlight.map (fun h =>
          h.constrainToDimensions ds.dimensions ds.timeAttribute) ∧
        ((e.visualization.handleCircumstance ds (e.splits.constrainToDimensions ds.dimensions)
            (match e.colors with
             | some c => if (ds.getDimension c.dimension).isNone then none else some c
             | none => none) true).isAutomatic = false →
          e'.splits = e.splits.constrainToDimensions ds.dimensions ∧
          e'.colors = (match e.colors with
            | some c => if (ds.getDimension c.dimension).isNone then none else some c
            | none => none))) := by
  refine ⟨?_, ?_, ?_, ?_⟩
  · intro h
    unfold Essence.changeDataSource
    dsimp only
    rw [h]
  · intro d hfind hd
    unfold Essence.changeDataSource
    dsimp only
    rw [hfind]
    dsimp only
    rw [if_pos hd]
  · intro d hfind hd hname
    unfold Essence.changeDataSource
    dsimp only
    rw [hfind]
    dsimp only
    rw [if_neg hd, if_pos hname]
  · intro d hfind hd hname e' hok
    have heq : e.changeDataSource ds = Essence.construct
        { dataSources := e.dataSources.map (fun ds0 => if ds0.name = ds.name then ds else ds0)
          visualizations := e.visualizations
          dataSource := some ds
          visualization := some e.visualization
          timezone := e.timezone
          filter := e.filter.constrainToDimensions ds.dimensions ds.timeAttribute
            e.dataSource.timeAttribute
          requiredFilter := e.requiredFilter.constrainToDimensions ds.dimensions ds.timeAttribute
            e.dataSource.timeAttribute
          splits := e.splits.constrainToDimensions ds.dimensions
          selectedMeasures := constrainMeasures e.selectedMeasures ds
          pinnedDimensions := constrainDimensions e.pinnedDimensions ds
          colors := (match e.colors with
            | some c => if (ds.getDimension c.dimension).isNone then none else some c
            | none => none)
          pinnedSort := (if (ds.getMeasure e.pinnedSort).isNone then ds.defaultSortMeasure
            else e.pinnedSort)
          compare := e.compare.map (fun c =>
            c.constrainToDimensions ds.dimensions ds.timeAttribute none)
          highlight := e.highlight.map (fun h =>
            h.constrainToDimensions ds.dimensions ds.timeAttribute) } := by
      unfold Essence.changeDataSource
      dsimp only
      rw [hfind]
      dsimp only
      rw [if_neg hd, if_neg (not_not_intro hname)]
      rfl
    rw [heq] at hok
    have hinv := construct_ok_inv hok
    have hds' : e'.dataSource = ds := by
      have h3 := hinv.2.2.1
      simp only [Option.some.injEq] at h3
      exact h3.symm
    refine ⟨hds', hinv.2.2.2.2.1, hinv.2.2.2.2.2.1, hinv.2.2.2.2.2.2.1,
      hinv.2.2.2.2.2.2.2.1, hinv.2.2.2.2.2.2.2.2.1, hinv.2.2.2.2.2.2.2.2.2.1,
      hinv.2.2.2.2.2.2.2.2.2.2.1, ?_⟩
    intro hna
    have hnev : (e.dataSources.map
        (fun ds0 => if ds0.name = ds.name then ds else ds0)).isEmpty = false := by
      cases hcat : e.dataSources with
      | nil =>
        rw [hcat] at hfind
        exact absurd hfind (by simp)
      | cons a t => rfl
    have hok2 := construct_not_automatic_ok
      ({ dataSources := e.dataSources.map (fun ds0 => if ds0.name = ds.name then ds else ds0)
         visualizations := e.visualizations
         dataSource := some ds
         visualization := some e.visualization
         timezone := e.timezone
         filter := e.filter.constrainToDimensions ds.dimensions ds.timeAttribute
           e.dataSource.timeAttribute
         requiredFilter := e.requiredFilter.constrainToDimensions ds.dimensions
           ds.timeAttribute e.dataSource.timeAttribute
         splits := e.splits.constrainToDimensions ds.dimensions
         selectedMeasures := constrainMeasures e.selectedMeasures ds
         pinnedDimensions := constrainDimensions e.pinnedDimensions ds
         colors := (match e.colors with
           | some c => if (ds.getDimension c.dimension).isNone then none else some c
           | none => none)
         pinnedSort := (if (ds.getMeasure e.pinnedSort).isNone then ds.defaultSortMeasure
           else e.pinnedSort)
         compare := e.compare.map (fun c =>
           c.constrainToDimensions ds.dimensions ds.timeAttribute none)
         highlight := e.highlight.map (fun h =>
           h.constrainToDimensions ds.dimensions ds.timeAttribute) } : EssenceValue)
      ds e.visualization hnev rfl rfl hna
    have hsame := hok2.symm.trans hok
    rw [Except.ok.injEq] at hsame
    rw [← hsame]
    exact ⟨rfl, rfl⟩

/-- Witness for the amended C3 at the concrete refresh (`wikiRefreshed` has
the same name as `wiki` but different content). -/
theorem claim_C3_witness :
    eCustRef.dataSource = wikiRefreshed ∧
    eCustRef.filter = eCust.filter.constrainToDimensions wikiRefreshed.dimensions
      wikiRefreshed.timeAttribute eCust.dataSource.timeAttribute ∧
    eCustRef.selectedMeasures = constrainMeasures eCust.selectedMeasures wikiRefreshed ∧
    eCust.changeDataSource wikiRefreshed = .ok eCustRef := by
  have h := (claim_C3_amended eCust wikiRefreshed).2.2.2 wiki rfl (by decide) rfl eCustRef rfl
  exact ⟨h.1, h.2.1, h.2.2.2.1, rfl⟩

end Pivot
